import Mathlib

/-!
# Loop-closure core of the pose graph (`pose_graph/Keyframe.cpp`)

A shallow embedding of the descriptor matcher, the mask filter, the loop-closure
decision, the covisibility update and the constructors of `Keyframe.cpp`, followed by
the properties established about them.

Modelling conventions.
* `int` values are `Int`; container sizes are assumed to fit in an `int`, as the
  source assumes with its `static_cast<int>(v.size())`.
* `std::vector<T>` is `List T`. An indexed read outside the vector is undefined
  behaviour in the source; the embedding returns `none` there.
* `float`/`double` values are rationals (`Rat`); sums, differences and products are
  exact, infinities and NaN are not modelled. The member `norm()` of a vector takes the
  square root of a rounded sum, and its rounding decides the branch taken at the bounds
  15 and 20: it is the field `norm` of `Library`, the value computed in double precision.
* `uchar` status entries are natural numbers; the code only stores 0 and 1 in them.
* Library routines outside the repository (`cv::solvePnPRansac`, `cv::Rodrigues`,
  `Utility::R2ypr`, `Utility::normalizeAngle`, the Eigen inverse and quaternion
  conversion) are the fields of `Library`, a parameter of the embedding; the feature
  detector and the descriptor extractor are the fields of `Features`.
* `std::map<Keyframe*, int>` is the list of its entries; `KFMap.WF` states the invariant
  of the container, strictly increasing keys.
* The `debug_mode_` blocks only draw images and write files; they read the keyframe and
  change none of its members, and are left out.
* A member function takes the keyframe as `self` and returns the keyframe after the call.
* `DVision::BRIEF256::bitset` is `std::bitset<256>`: a natural number below `2 ^ 256`
  whose binary digits are the bits.
-/

namespace SVIn

/-! ## Descriptors -/

/-- The type `DVision::BRIEF256::bitset`, that is `std::bitset<256>`. -/
structure bitset where
  val : Nat
  isLt : val < 2 ^ 256
deriving DecidableEq

namespace bitset

/-- Bit `i` of the bitset (`std::bitset::test`). -/
def test (a : bitset) (i : Nat) : Bool := a.val.testBit i

/-- The `operator^` of `std::bitset<256>`: bitwise exclusive or. -/
def xor (a b : bitset) : bitset := ⟨a.val ^^^ b.val, Nat.xor_lt_two_pow a.isLt b.isLt⟩

/-- The member `std::bitset<256>::count`: how many of the 256 bits are set. -/
def count (a : bitset) : Nat := (List.range 256).countP (fun i => a.test i)

end bitset

/-- `Keyframe::HammingDis`: `(a ^ b).count()` converted to `int`. -/
def HammingDis (a b : bitset) : Int :=
  let xor_of_bitset := bitset.xor a b
  let dis : Int := (xor_of_bitset.count : Int)
  dis

/-! ## Points -/

/-- The type `cv::Point2f`. -/
structure Point2f where
  x : Rat
  y : Rat
deriving DecidableEq

/-- The type `cv::Point3f`. -/
structure Point3f where
  x : Rat
  y : Rat
  z : Rat
deriving DecidableEq

/-- The type `cv::KeyPoint`; only its position `pt` is read by the code embedded here. -/
structure KeyPoint where
  pt : Point2f
deriving DecidableEq

/-! ## Descriptor matcher -/

/-- The `for` loop of `Keyframe::searchInAera` from candidate index `i` on: it returns
the final `(bestDist, bestIndex)`. -/
def searchInAera.scan (window_descriptor : bitset) :
    List bitset → Int → Int → Int → Int × Int
  | [], _, bestDist, bestIndex => (bestDist, bestIndex)
  | d :: rest, i, bestDist, bestIndex =>
    let dis := HammingDis window_descriptor d
    if dis < bestDist then
      searchInAera.scan window_descriptor rest (i + 1) dis i
    else
      searchInAera.scan window_descriptor rest (i + 1) bestDist bestIndex

/-- `Keyframe::searchInAera`. The result is the returned flag together with the final
values of the reference parameters `best_match` and `best_match_norm`; `none` is an
out-of-range read of a keypoint vector. -/
def searchInAera (window_descriptor : bitset) (descriptors_old : List bitset)
    (keypoints_old keypoints_old_norm : List KeyPoint)
    (best_match best_match_norm : Point2f) : Option (Bool × Point2f × Point2f) :=
  let r := searchInAera.scan window_descriptor descriptors_old 0 128 (-1)
  let bestDist := r.1
  let bestIndex := r.2
  if bestIndex ≠ -1 ∧ bestDist < 80 then
    match keypoints_old[bestIndex.toNat]?, keypoints_old_norm[bestIndex.toNat]? with
    | some k, some kn => some (true, k.pt, kn.pt)
    | _, _ => none
  else
    some (false, best_match, best_match_norm)

/-- `Keyframe::searchByBRIEFDes`, the loop over the window descriptors: each iteration
pushes one entry on each of the three output vectors. -/
def searchByBRIEFDes.loop (descriptors_old : List bitset)
    (keypoints_old keypoints_old_norm : List KeyPoint) :
    List bitset → List Point2f → List Point2f → List Nat →
      Option (List Point2f × List Point2f × List Nat)
  | [], matched_2d_old, matched_2d_old_norm, status =>
    some (matched_2d_old, matched_2d_old_norm, status)
  | w :: rest, matched_2d_old, matched_2d_old_norm, status =>
    match searchInAera w descriptors_old keypoints_old keypoints_old_norm ⟨0, 0⟩ ⟨0, 0⟩ with
    | none => none
    | some (found, pt, pt_norm) =>
      searchByBRIEFDes.loop descriptors_old keypoints_old keypoints_old_norm rest
        (matched_2d_old ++ [pt]) (matched_2d_old_norm ++ [pt_norm])
        (status ++ [if found then 1 else 0])

/-- `Keyframe::searchByBRIEFDes` of a keyframe whose `window_brief_descriptors` are
given; the three output vectors are passed in and returned. -/
def searchByBRIEFDes (window_brief_descriptors : List bitset)
    (matched_2d_old matched_2d_old_norm : List Point2f) (status : List Nat)
    (descriptors_old : List bitset) (keypoints_old keypoints_old_norm : List KeyPoint) :
    Option (List Point2f × List Point2f × List Nat) :=
  searchByBRIEFDes.loop descriptors_old keypoints_old keypoints_old_norm
    window_brief_descriptors matched_2d_old matched_2d_old_norm status

/-! ## Mask filter -/

/-- The `for` loop of `reduceVector`: `n` iterations remain, `i` is the read index and
`j` the write index. It returns the overwritten vector and the final `j`; `none` is a
read outside `status` or `v`. -/
def reduceVector.loop {α : Type} (status : List Nat) :
    Nat → Nat → Nat → List α → Option (List α × Nat)
  | 0, _, j, v => some (v, j)
  | n + 1, i, j, v =>
    match status[i]?, v[i]? with
    | some s, some x =>
      if s ≠ 0 then reduceVector.loop status n (i + 1) (j + 1) (v.set j x)
      else reduceVector.loop status n (i + 1) j v
    | _, _ => none

/-- The template `reduceVector`: in-place compaction of `v` by the mask `status`,
followed by `v.resize(j)`. -/
def reduceVector {α : Type} (v : List α) (status : List Nat) : Option (List α) :=
  match reduceVector.loop status v.length 0 0 v with
  | some (w, j) => some (w.take j)
  | none => none

/-- The elements of `v` whose entry in the mask `status` is nonzero, in their original
order: what the mask filter is meant to leave in `v`. -/
def keptBy {α : Type} : List α → List Nat → List α
  | x :: v, s :: status => if s ≠ 0 then x :: keptBy v status else keptBy v status
  | _, _ => []

/-! ## Linear algebra values -/

/-- The type `Eigen::Vector3d`. -/
structure Vector3d where
  x : Rat
  y : Rat
  z : Rat
deriving DecidableEq

/-- The type `Eigen::Vector3i`, used for the point identifiers. -/
structure Vector3i where
  x : Int
  y : Int
  z : Int
deriving DecidableEq

/-- The type `Eigen::Matrix3d`; `mij` is the coefficient in row `i`, column `j`. -/
structure Matrix3d where
  m00 : Rat
  m01 : Rat
  m02 : Rat
  m10 : Rat
  m11 : Rat
  m12 : Rat
  m20 : Rat
  m21 : Rat
  m22 : Rat
deriving DecidableEq

/-- The type `Eigen::Quaterniond`, with coefficients in the order `(w, x, y, z)` of its
four-scalar constructor. -/
structure Quaterniond where
  w : Rat
  x : Rat
  y : Rat
  z : Rat
deriving DecidableEq

/-- The type `Eigen::Matrix<double, 8, 1>` of `loop_info`; `ci` is coefficient `i`. -/
structure Vector8d where
  c0 : Rat
  c1 : Rat
  c2 : Rat
  c3 : Rat
  c4 : Rat
  c5 : Rat
  c6 : Rat
  c7 : Rat
deriving DecidableEq

namespace Vector3d

/-- Unary minus of a vector. -/
def neg (v : Vector3d) : Vector3d := ⟨-v.x, -v.y, -v.z⟩

/-- Difference of two vectors. -/
def sub (a b : Vector3d) : Vector3d := ⟨a.x - b.x, a.y - b.y, a.z - b.z⟩

/-- The square of the Euclidean norm of the vector, in exact arithmetic. The code does not
compute it: it calls `norm()`, the field `norm` of `Library`. -/
def squaredNorm (v : Vector3d) : Rat := v.x * v.x + v.y * v.y + v.z * v.z

end Vector3d

namespace Matrix3d

/-- The member `transpose`. -/
def transpose (m : Matrix3d) : Matrix3d :=
  ⟨m.m00, m.m10, m.m20, m.m01, m.m11, m.m21, m.m02, m.m12, m.m22⟩

/-- Matrix times vector. -/
def mulVec (m : Matrix3d) (v : Vector3d) : Vector3d :=
  ⟨m.m00 * v.x + m.m01 * v.y + m.m02 * v.z,
   m.m10 * v.x + m.m11 * v.y + m.m12 * v.z,
   m.m20 * v.x + m.m21 * v.y + m.m22 * v.z⟩

/-- Matrix times matrix. -/
def mul (a b : Matrix3d) : Matrix3d :=
  ⟨a.m00 * b.m00 + a.m01 * b.m10 + a.m02 * b.m20,
   a.m00 * b.m01 + a.m01 * b.m11 + a.m02 * b.m21,
   a.m00 * b.m02 + a.m01 * b.m12 + a.m02 * b.m22,
   a.m10 * b.m00 + a.m11 * b.m10 + a.m12 * b.m20,
   a.m10 * b.m01 + a.m11 * b.m11 + a.m12 * b.m21,
   a.m10 * b.m02 + a.m11 * b.m12 + a.m12 * b.m22,
   a.m20 * b.m00 + a.m21 * b.m10 + a.m22 * b.m20,
   a.m20 * b.m01 + a.m21 * b.m11 + a.m22 * b.m21,
   a.m20 * b.m02 + a.m21 * b.m12 + a.m22 * b.m22⟩

end Matrix3d

/-! ## Configuration and library routines -/

/-- The part of `Parameters` read by the code embedded here: the minimum correspondence
count `loop_closure_params_.min_correspondences` and the pinhole intrinsics read by
`project_normal`. The distortion coefficients and the RANSAC settings are only handed to
the solver, and `debug_mode_` only switches the writing of debug images and of a log
file. -/
structure Parameters where
  min_correspondences : Int
  p_fx_ : Rat
  p_fy_ : Rat
  p_cx_ : Rat
  p_cy_ : Rat
deriving DecidableEq

/-- What a call of `cv::solvePnPRansac` leaves behind: whether it threw a
`cv::Exception`, the in-out arguments `rvec` and `t`, and the rows of the `inliers`
matrix. -/
structure SolverResult where
  threw : Bool
  rvec : Vector3d
  t : Vector3d
  inliers : List Int

/-- Library routines whose code is outside the repository (OpenCV, Eigen and the
`Utility` header). They are parameters of the embedding: every statement about
`findConnection` holds whatever these routines compute. -/
structure Library where
  /-- The member `Eigen::Matrix3d::inverse`. -/
  inverse : Matrix3d → Matrix3d
  /-- The routine `cv::Rodrigues`, from a rotation matrix to a rotation vector. -/
  RodriguesVec : Matrix3d → Vector3d
  /-- The routine `cv::Rodrigues`, from a rotation vector to a rotation matrix. -/
  RodriguesMat : Vector3d → Matrix3d
  /-- The routine `cv::solvePnPRansac` applied to `matched_3d`, `matched_2d_old` and the
  initial `rvec` and `t`, with the camera matrix, the distortion coefficients, the
  iteration count, the reprojection threshold and the confidence 0.99 of the call. -/
  solvePnPRansac : List Point3f → List Point2f → Vector3d → Vector3d → SolverResult
  /-- The routine `Utility::R2ypr`: yaw, pitch and roll of a rotation, in degrees. -/
  R2ypr : Matrix3d → Vector3d
  /-- The routine `Utility::normalizeAngle`. -/
  normalizeAngle : Rat → Rat
  /-- The conversion of a rotation matrix to `Eigen::Quaterniond`. -/
  toQuaternion : Matrix3d → Quaterniond
  /-- The member `Eigen::Vector3d::norm`: the square root, in double precision, of the
  sum of the squares computed in double precision. -/
  norm : Vector3d → Rat

/-! ## Keyframe -/

/-- The type `std::map<Keyframe*, int>`: the entries in increasing key order, a key being
the address of a keyframe. -/
abbrev KFMap := List (Nat × Int)

/-- The member `insert` of `std::map`: the pair is put at its place in key order, and
nothing changes when the key is already present. -/
def KFMap.insert : KFMap → Nat × Int → KFMap
  | [], kv => [kv]
  | e :: rest, kv =>
    if kv.1 < e.1 then kv :: e :: rest
    else if kv.1 = e.1 then e :: rest
    else e :: KFMap.insert rest kv

/-- The data members of `Keyframe` that the code embedded here reads or writes. The
image, the vocabulary, the bag-of-words vectors and the BRISK members are left out. -/
structure Keyframe where
  time_stamp : Int
  index : Int
  sequence : Int
  is_vio_keyframe_ : Bool
  params_ : Parameters
  svin_T_w_i : Vector3d
  svin_R_w_i : Matrix3d
  T_w_i : Vector3d
  R_w_i : Matrix3d
  origin_svin_T : Vector3d
  origin_svin_R : Matrix3d
  point_3d : List Point3f
  point_2d_uv : List KeyPoint
  point_ids_ : List Vector3i
  window_keypoints : List KeyPoint
  window_keypoints_norm : List KeyPoint
  window_brief_descriptors : List bitset
  keypoints : List KeyPoint
  keypoints_norm : List KeyPoint
  brief_descriptors : List bitset
  has_loop : Bool
  loop_index : Int
  has_fast_point : Bool
  loop_info : Vector8d
  KFcounter_ : KFMap
  mConnectedKeyFrameWeights : KFMap
deriving DecidableEq

/-- The local vectors of one `findConnection` attempt. -/
structure MatchSet where
  matched_2d_cur : List KeyPoint
  matched_2d_old : List Point2f
  matched_2d_old_norm : List Point2f
  matched_3d : List Point3f
  matched_ids : List Vector3i
deriving DecidableEq

/-! ## Geometric verifier -/

/-- The second loop of `Keyframe::PnPRANSAC`: `status[n] = 1` for every row `n` of the
`inliers` matrix; `none` is a write outside `status`. -/
def PnPRANSAC.mark : List Int → List Nat → Option (List Nat)
  | [], status => some status
  | n :: rest, status =>
    if 0 ≤ n ∧ n.toNat < status.length then PnPRANSAC.mark rest (status.set n.toNat 1)
    else none

/-- `Keyframe::PnPRANSAC`. The result is the final `status` together with `PnP_T_old`
and `PnP_R_old`. -/
def PnPRANSAC (lib : Library) (self : Keyframe) (matched_2d_old : List Point2f)
    (matched_3d : List Point3f) (status : List Nat) :
    Option (List Nat × Vector3d × Matrix3d) :=
  let R_w_c := self.origin_svin_R
  let T_w_c := self.origin_svin_T
  let R_inital := lib.inverse R_w_c
  let P_inital := (R_inital.mulVec T_w_c).neg
  let rvec := lib.RodriguesVec R_inital
  let t := P_inital
  let sol := lib.solvePnPRansac matched_3d matched_2d_old rvec t
  -- the `catch` branch: `inliers.setTo(cv::Scalar(0))`
  let inliers := if sol.threw then sol.inliers.map (fun _ => 0) else sol.inliers
  let status := status ++ List.replicate matched_2d_old.length 0
  match PnPRANSAC.mark inliers status with
  | none => none
  | some status =>
    let R_pnp := lib.RodriguesMat sol.rvec
    let R_w_c_old := R_pnp.transpose
    let T_pnp := sol.t
    let T_w_c_old := R_w_c_old.mulVec T_pnp.neg
    some (status, T_w_c_old, R_w_c_old)

/-! ## Loop-closure decision -/

/-- `Keyframe::findConnection`, from the copy of the point vectors to the `status.clear()`
that follows the first five `reduceVector` calls: the match set left by descriptor
matching. -/
def findConnection.descriptorMatched (self old_kf : Keyframe) : Option MatchSet := do
  let matched_3d := self.point_3d
  let matched_2d_cur := self.point_2d_uv
  let matched_ids := self.point_ids_
  let (matched_2d_old, matched_2d_old_norm, status) ←
    searchByBRIEFDes self.window_brief_descriptors [] [] []
      old_kf.brief_descriptors old_kf.keypoints old_kf.keypoints_norm
  let matched_2d_old ← reduceVector matched_2d_old status
  let matched_3d ← reduceVector matched_3d status
  let matched_2d_cur ← reduceVector matched_2d_cur status
  let matched_2d_old_norm ← reduceVector matched_2d_old_norm status
  let matched_ids ← reduceVector matched_ids status
  pure ⟨matched_2d_cur, matched_2d_old, matched_2d_old_norm, matched_3d, matched_ids⟩

/-- `Keyframe::findConnection`, the first `if` on the correspondence count: `PnPRANSAC`
and the second five `reduceVector` calls. The result is the match set after the block
and the pose `(PnP_T_old, PnP_R_old)`, which stays unset (`none`) when the block is
skipped. -/
def findConnection.geometricallyVerified (lib : Library) (self : Keyframe) (m : MatchSet) :
    Option (MatchSet × Option (Vector3d × Matrix3d)) :=
  if (m.matched_2d_cur.length : Int) > self.params_.min_correspondences then do
    let (status, PnP_T_old, PnP_R_old) ← PnPRANSAC lib self m.matched_2d_old m.matched_3d []
    let matched_2d_cur ← reduceVector m.matched_2d_cur status
    let matched_2d_old ← reduceVector m.matched_2d_old status
    let matched_2d_old_norm ← reduceVector m.matched_2d_old_norm status
    let matched_3d ← reduceVector m.matched_3d status
    let matched_ids ← reduceVector m.matched_ids status
    pure (⟨matched_2d_cur, matched_2d_old, matched_2d_old_norm, matched_3d, matched_ids⟩,
      some (PnP_T_old, PnP_R_old))
  else
    pure (m, none)

/-- The value `relative_t` of `findConnection`. -/
def findConnection.relative_t (self : Keyframe) (PnP_T_old : Vector3d) (PnP_R_old : Matrix3d) :
    Vector3d :=
  PnP_R_old.transpose.mulVec (self.origin_svin_T.sub PnP_T_old)

/-- The value `relative_q` of `findConnection`. -/
def findConnection.relative_q (lib : Library) (self : Keyframe) (PnP_R_old : Matrix3d) :
    Quaterniond :=
  lib.toQuaternion (PnP_R_old.transpose.mul self.origin_svin_R)

/-- The value `relative_yaw` of `findConnection`. -/
def findConnection.relative_yaw (lib : Library) (self : Keyframe) (PnP_R_old : Matrix3d) : Rat :=
  lib.normalizeAngle ((lib.R2ypr self.origin_svin_R).x - (lib.R2ypr PnP_R_old).x)

/-- `Keyframe::findConnection`, from the second `if` on the correspondence count to the
end: the relative pose, the acceptance gate and the write of the loop state. Reading the
pose while it is unset is `none`. The gate `abs(relative_yaw) < 25.0` is the comparison of
the absolute value; were `abs` resolved to the integer overload, the truncated value is
below 25 exactly when the absolute value is. -/
def findConnection.gate (lib : Library) (self old_kf : Keyframe) (m : MatchSet)
    (pose : Option (Vector3d × Matrix3d)) : Option (Bool × Keyframe) :=
  if (m.matched_2d_cur.length : Int) > self.params_.min_correspondences then
    match pose with
    | none => none
    | some (PnP_T_old, PnP_R_old) =>
      let relative_t := findConnection.relative_t self PnP_T_old PnP_R_old
      let relative_q := findConnection.relative_q lib self PnP_R_old
      let relative_yaw := findConnection.relative_yaw lib self PnP_R_old
      if |relative_yaw| < 25 ∧ lib.norm relative_t < 15 then
        some (true,
          { self with
            has_loop := true
            loop_index := old_kf.index
            loop_info := ⟨relative_t.x, relative_t.y, relative_t.z, relative_q.w,
              relative_q.x, relative_q.y, relative_q.z, relative_yaw⟩ })
      else some (false, self)
  else some (false, self)

/-- `Keyframe::findConnection` on the current keyframe `self` with the candidate
`old_kf`: the three consecutive parts of its body. The result is the returned flag and
the current keyframe after the call. -/
def findConnection (lib : Library) (self old_kf : Keyframe) : Option (Bool × Keyframe) :=
  if !old_kf.is_vio_keyframe_ then some (false, self)
  else do
    let m ← findConnection.descriptorMatched self old_kf
    let (m, pose) ← findConnection.geometricallyVerified lib self m
    findConnection.gate lib self old_kf m pose

/-! ## Loop state accessors -/

/-- `Keyframe::getLoopRelativeT`. -/
def Keyframe.getLoopRelativeT (self : Keyframe) : Vector3d :=
  ⟨self.loop_info.c0, self.loop_info.c1, self.loop_info.c2⟩

/-- `Keyframe::getLoopRelativeQ`. -/
def Keyframe.getLoopRelativeQ (self : Keyframe) : Quaterniond :=
  ⟨self.loop_info.c3, self.loop_info.c4, self.loop_info.c5, self.loop_info.c6⟩

/-- `Keyframe::getLoopRelativeYaw`. -/
def Keyframe.getLoopRelativeYaw (self : Keyframe) : Rat := self.loop_info.c7

/-- `Keyframe::updateLoop`. -/
def Keyframe.updateLoop (lib : Library) (self : Keyframe) (_loop_info : Vector8d) : Keyframe :=
  if |_loop_info.c7| < 30 ∧
      lib.norm ⟨_loop_info.c0, _loop_info.c1, _loop_info.c2⟩ < 20 then
    { self with loop_info := _loop_info }
  else self

/-! ## Covisibility row -/

/-- The loop of `Keyframe::updateConnections` over the entries of `KFcounter_`. -/
def Keyframe.updateConnections.loop (th_weight : Int) : KFMap → KFMap → KFMap
  | [], row => row
  | mit :: rest, row =>
    if mit.2 > th_weight then
      Keyframe.updateConnections.loop th_weight rest (KFMap.insert row (mit.1, mit.2))
    else
      Keyframe.updateConnections.loop th_weight rest row

/-- `Keyframe::updateConnections`. -/
def Keyframe.updateConnections (self : Keyframe) : Keyframe :=
  if self.KFcounter_.isEmpty ∧ self.is_vio_keyframe_ = true then self
  else
    let th_weight : Int := 20
    { self with
      mConnectedKeyFrameWeights :=
        Keyframe.updateConnections.loop th_weight self.KFcounter_
          self.mConnectedKeyFrameWeights }

/-- The keyframe written by an accepted attempt whose verification returned the pose
`(T, R)`: `has_loop`, `loop_index` and `loop_info` are set, nothing else changes. -/
def findConnection.accepted (lib : Library) (self old_kf : Keyframe) (T : Vector3d)
    (R : Matrix3d) : Keyframe :=
  { self with
    has_loop := true
    loop_index := old_kf.index
    loop_info :=
      ⟨(findConnection.relative_t self T R).x, (findConnection.relative_t self T R).y,
        (findConnection.relative_t self T R).z, (findConnection.relative_q lib self R).w,
        (findConnection.relative_q lib self R).x, (findConnection.relative_q lib self R).y,
        (findConnection.relative_q lib self R).z, findConnection.relative_yaw lib self R⟩ }

/-! ## Construction and pose updates -/

/-- The type `cv::Mat` of a grey image: its rows of pixel intensities. -/
abbrev Image := List (List Nat)

/-- The type `Eigen::Vector2d`. -/
structure Vector2d where
  x : Rat
  y : Rat
deriving DecidableEq

/-- Feature extraction routines whose code is outside the repository. The pattern file
of `BriefExtractor` is taken to open, so that its constructor does not throw. -/
structure Features where
  /-- The call `BriefExtractor::operator()`, that is `DVision::BRIEF::compute`: the
  descriptors of the given keypoints of an image. -/
  brief : Image → List KeyPoint → List bitset
  /-- The routine `cv::FAST` with threshold 20 and non-maximum suppression. -/
  FAST : Image → List KeyPoint

/-- `Keyframe::project_normal`; the result is the reference parameter `point3d`. -/
def Keyframe.project_normal (self : Keyframe) (kp : Vector2d) : Vector3d :=
  let invfx := 1 / self.params_.p_fx_
  let invfy := 1 / self.params_.p_fy_
  let u := kp.x
  let v := kp.y
  ⟨(u - self.params_.p_cx_) * invfx, (v - self.params_.p_cy_) * invfy, 1⟩

/-- The body of the loops of `computeWindowBRIEFPoint` and `computeBRIEFPoint`: the
normalized keypoint pushed for the keypoint `k`. -/
def Keyframe.normalized (self : Keyframe) (k : KeyPoint) : KeyPoint :=
  let tmp_p := self.project_normal ⟨k.pt.x, k.pt.y⟩
  ⟨⟨tmp_p.x / tmp_p.z, tmp_p.y / tmp_p.z⟩⟩

/-- `Keyframe::computeWindowBRIEFPoint` on the image of the keyframe. -/
def Keyframe.computeWindowBRIEFPoint (feat : Features) (image : Image) (self : Keyframe) :
    Keyframe :=
  let window_keypoints := self.point_2d_uv
  let window_brief_descriptors := feat.brief image window_keypoints
  { self with
    window_keypoints := window_keypoints
    window_brief_descriptors := window_brief_descriptors
    window_keypoints_norm :=
      self.window_keypoints_norm ++ window_keypoints.map self.normalized }

/-- `Keyframe::computeBRIEFPoint` on the image of the keyframe. -/
def Keyframe.computeBRIEFPoint (feat : Features) (image : Image) (self : Keyframe) :
    Keyframe :=
  let keypoints := feat.FAST image
  let brief_descriptors := feat.brief image keypoints
  { self with
    keypoints := keypoints
    brief_descriptors := brief_descriptors
    keypoints_norm := self.keypoints_norm ++ keypoints.map self.normalized }

/-- The first constructor `Keyframe::Keyframe`, of a keyframe with an image and points.
The call of `computeBoW` fills the bag-of-words vectors, which are left out. -/
def Keyframe.construct (feat : Features) (_time_stamp : Int) (_point_ids : List Vector3i)
    (_index : Int) (_svin_T_w_i : Vector3d) (_svin_R_w_i : Matrix3d) (_image : Image)
    (_point_3d : List Point3f) (_point_2d_uv : List KeyPoint) (KFcounter : KFMap)
    (_sequence : Int) (params : Parameters) (is_vio_keyframe : Bool) : Keyframe :=
  let kf : Keyframe :=
    { time_stamp := _time_stamp
      index := _index
      sequence := _sequence
      is_vio_keyframe_ := is_vio_keyframe
      params_ := params
      svin_T_w_i := _svin_T_w_i
      svin_R_w_i := _svin_R_w_i
      T_w_i := _svin_T_w_i
      R_w_i := _svin_R_w_i
      origin_svin_T := _svin_T_w_i
      origin_svin_R := _svin_R_w_i
      point_3d := _point_3d
      point_2d_uv := _point_2d_uv
      point_ids_ := _point_ids
      window_keypoints := []
      window_keypoints_norm := []
      window_brief_descriptors := []
      keypoints := []
      keypoints_norm := []
      brief_descriptors := []
      has_loop := false
      loop_index := -1
      has_fast_point := false
      loop_info := ⟨0, 0, 0, 0, 0, 0, 0, 0⟩
      KFcounter_ := []
      mConnectedKeyFrameWeights := [] }
  let kf := if is_vio_keyframe then kf.computeWindowBRIEFPoint feat _image else kf
  let kf := { kf with KFcounter_ := KFcounter }
  let kf := kf.updateConnections
  kf.computeBRIEFPoint feat _image

/-- The second constructor `Keyframe::Keyframe`, of a keyframe without image and
points. -/
def Keyframe.construct_poseOnly (_time_stamp : Int) (_index : Int) (_svin_T_w_i : Vector3d)
    (_svin_R_w_i : Matrix3d) (KFcounter : KFMap) (_sequence : Int) (params : Parameters)
    (is_vio_keyframe : Bool) : Keyframe :=
  let kf : Keyframe :=
    { time_stamp := _time_stamp
      index := _index
      sequence := _sequence
      is_vio_keyframe_ := is_vio_keyframe
      params_ := params
      svin_T_w_i := _svin_T_w_i
      svin_R_w_i := _svin_R_w_i
      T_w_i := _svin_T_w_i
      R_w_i := _svin_R_w_i
      origin_svin_T := _svin_T_w_i
      origin_svin_R := _svin_R_w_i
      point_3d := []
      point_2d_uv := []
      point_ids_ := []
      window_keypoints := []
      window_keypoints_norm := []
      window_brief_descriptors := []
      keypoints := []
      keypoints_norm := []
      brief_descriptors := []
      has_loop := false
      loop_index := -1
      has_fast_point := false
      loop_info := ⟨0, 0, 0, 0, 0, 0, 0, 0⟩
      KFcounter_ := KFcounter
      mConnectedKeyFrameWeights := [] }
  kf.updateConnections

/-- `Keyframe::updatePose`. -/
def Keyframe.updatePose (self : Keyframe) (_T_w_i : Vector3d) (_R_w_i : Matrix3d) : Keyframe :=
  { self with T_w_i := _T_w_i, R_w_i := _R_w_i }

/-- `Keyframe::updateSVInPose`. -/
def Keyframe.updateSVInPose (self : Keyframe) (_T_w_i : Vector3d) (_R_w_i : Matrix3d) :
    Keyframe :=
  { self with svin_T_w_i := _T_w_i, svin_R_w_i := _R_w_i, T_w_i := _T_w_i, R_w_i := _R_w_i }

/-- The keyframe states reachable from either constructor through calls of
`findConnection`, `updateLoop`, `updatePose` and `updateSVInPose`, the candidates handed
to `findConnection` being those allowed by `candidate self old_kf`. -/
inductive Reachable (candidate : Keyframe → Keyframe → Prop) : Keyframe → Prop
  | full (feat : Features) (_time_stamp : Int) (_point_ids : List Vector3i) (_index : Int)
      (_svin_T_w_i : Vector3d) (_svin_R_w_i : Matrix3d) (_image : Image)
      (_point_3d : List Point3f) (_point_2d_uv : List KeyPoint) (KFcounter : KFMap)
      (_sequence : Int) (params : Parameters) (is_vio_keyframe : Bool) :
      Reachable candidate
        (Keyframe.construct feat _time_stamp _point_ids _index _svin_T_w_i _svin_R_w_i _image
          _point_3d _point_2d_uv KFcounter _sequence params is_vio_keyframe)
  | poseOnly (_time_stamp : Int) (_index : Int) (_svin_T_w_i : Vector3d)
      (_svin_R_w_i : Matrix3d) (KFcounter : KFMap) (_sequence : Int) (params : Parameters)
      (is_vio_keyframe : Bool) :
      Reachable candidate
        (Keyframe.construct_poseOnly _time_stamp _index _svin_T_w_i _svin_R_w_i KFcounter
          _sequence params is_vio_keyframe)
  | findConnection (lib : Library) (self old_kf kf : Keyframe) (b : Bool) :
      Reachable candidate self → candidate self old_kf →
      findConnection lib self old_kf = some (b, kf) → Reachable candidate kf
  | updateLoop (lib : Library) (self : Keyframe) (_loop_info : Vector8d) :
      Reachable candidate self → Reachable candidate (self.updateLoop lib _loop_info)
  | updatePose (self : Keyframe) (_T_w_i : Vector3d) (_R_w_i : Matrix3d) :
      Reachable candidate self → Reachable candidate (self.updatePose _T_w_i _R_w_i)
  | updateSVInPose (self : Keyframe) (_T_w_i : Vector3d) (_R_w_i : Matrix3d) :
      Reachable candidate self → Reachable candidate (self.updateSVInPose _T_w_i _R_w_i)

/-! ## Map lookups and the solver call -/

/-- The member `find` of `std::map`: the weight stored for the key `k`, if any. -/
def KFMap.lookup (m : KFMap) (k : Nat) : Option Int := List.lookup k m

/-- The invariant of `std::map`: the keys are strictly increasing, so each occurs once. -/
def KFMap.WF (m : KFMap) : Prop := m.Pairwise (fun a b => a.1 < b.1)

/-- The `SolverResult` of the call of `cv::solvePnPRansac` made by `Keyframe::PnPRANSAC`
on the given correspondences. -/
def PnPRANSAC.solverCall (lib : Library) (self : Keyframe) (matched_2d_old : List Point2f)
    (matched_3d : List Point3f) : SolverResult :=
  let R_inital := lib.inverse self.origin_svin_R
  let P_inital := (R_inital.mulVec self.origin_svin_T).neg
  lib.solvePnPRansac matched_3d matched_2d_old (lib.RodriguesVec R_inital) P_inital

/-- The solver raised its exception: the call threw, and the `inliers` matrix, declared
empty just before the call, has no rows (OpenCV writes its inliers only at the end of a
call that succeeds). -/
def SolverResult.raised (s : SolverResult) : Prop := s.threw = true ∧ s.inliers = []

/-- The match set with five empty vectors. -/
def MatchSet.empty : MatchSet := ⟨[], [], [], [], []⟩

/-! ## Concrete inputs -/

/-- The descriptor whose `n` lowest bits are set (`n ≤ 256`). -/
def lowBits (n : Nat) (h : 2 ^ n - 1 < 2 ^ 256) : bitset := ⟨2 ^ n - 1, h⟩

/-- The all-zero descriptor. -/
def desc0 : bitset := lowBits 0 (by decide)

/-- A descriptor with 81 set bits. -/
def desc81 : bitset := lowBits 81 (by decide)

/-- A descriptor with 100 set bits. -/
def desc100 : bitset := lowBits 100 (by decide)

/-- A descriptor with 3 set bits. -/
def desc3 : bitset := lowBits 3 (by decide)

/-- The keypoint at `(x, y)`. -/
def kpAt (x y : Rat) : KeyPoint := ⟨⟨x, y⟩⟩

/-- Scenario A: a pool of three candidates, the second identical to the query `desc0`,
the others 81 and 100 bits away. -/
def poolA : List bitset := [desc81, desc0, desc100]

/-- Positions of the candidates of `poolA`. -/
def poolA_keypoints : List KeyPoint := [kpAt 10 11, kpAt 20 21, kpAt 30 31]

/-- Normalized positions of the candidates of `poolA`. -/
def poolA_keypoints_norm : List KeyPoint := [kpAt (1 / 10) (1 / 11), kpAt (1 / 5) (1 / 7), kpAt (3 / 10) (1 / 3)]

/-- The descriptor whose bits `8 * i` to `8 * i + 7` are set; two of them with different
`i` differ in 16 bits. -/
def blockDesc (i : Nat) : bitset := ⟨(255 * 2 ^ (8 * i)) % 2 ^ 256, Nat.mod_lt _ (by decide)⟩

/-- The identity rotation. -/
def Matrix3d.identity : Matrix3d := ⟨1, 0, 0, 0, 1, 0, 0, 0, 1⟩

/-- A rotation by ten degrees about the vertical axis, to four decimals. -/
def rotZ10 : Matrix3d := ⟨9848 / 10000, -1736 / 10000, 0, 1736 / 10000, 9848 / 10000, 0, 0, 0, 1⟩

/-- The inverse of a matrix by the cofactor formula. -/
def Matrix3d.cofactorInverse (m : Matrix3d) : Matrix3d :=
  let det := m.m00 * (m.m11 * m.m22 - m.m12 * m.m21) - m.m01 * (m.m10 * m.m22 - m.m12 * m.m20)
    + m.m02 * (m.m10 * m.m21 - m.m11 * m.m20)
  ⟨(m.m11 * m.m22 - m.m12 * m.m21) / det, (m.m02 * m.m21 - m.m01 * m.m22) / det,
   (m.m01 * m.m12 - m.m02 * m.m11) / det, (m.m12 * m.m20 - m.m10 * m.m22) / det,
   (m.m00 * m.m22 - m.m02 * m.m20) / det, (m.m02 * m.m10 - m.m00 * m.m12) / det,
   (m.m10 * m.m21 - m.m11 * m.m20) / det, (m.m01 * m.m20 - m.m00 * m.m21) / det,
   (m.m00 * m.m11 - m.m01 * m.m10) / det⟩

/-- A vector of doubles whose squared norm is above 225: in double precision the sum of
its squares is the double just below 225, and `norm()` returns the double just below
15. -/
def roundedBelow15 : Vector3d :=
  ⟨5605342211113393 / 2251799813685248, 5027345465591749 / 562949953421312,
    3319164145570063 / 281474976710656⟩

/-- The vector `(9 + 2^-49, 12 - 2^-49, 0)` of doubles, whose squared norm is below 225:
in double precision its squares are `81 + 2^-45` and `144 - 2^-45`, their sum is 225 and
`norm()` returns 15. -/
def roundedTo15 : Vector3d := ⟨9 + 1 / 562949953421312, 12 - 1 / 562949953421312, 0⟩

/-- The vector `(12, 16 - 2^-49, 0)` of doubles, whose squared norm is below 400: in double
precision the sum of its squares is `400 - 2^-44`, whose square root rounds to 20. -/
def roundedTo20 : Vector3d := ⟨12, 16 - 1 / 562949953421312, 0⟩

/-- The values of `norm()` in double precision, every product, sum and square root
rounded to nearest, on the vectors met in the scenarios: the three vectors above, the
vector `(3, 4, 0)` and the vectors along an axis, whose norm is the absolute value of
their coordinate. The last line also gives a value to the vectors that are not met. -/
def scenarioNorm (v : Vector3d) : Rat :=
  if v = roundedBelow15 then 15 - 1 / 562949953421312
  else if v = roundedTo15 then 15
  else if v = roundedTo20 then 20
  else if v = ⟨3, 4, 0⟩ then 5
  else |v.x| + |v.y| + |v.z|

/-- Library behaviour of the scenarios: the solver does not throw, keeps the
correspondences whose indices are `inliers` and returns the zero rotation vector and the
zero translation, so that the old pose is the identity at the origin; the yaw of the
identity is 0 and the yaw of any other rotation met is `yaw`; angles between -180 and 180
are already normalized; the norm is `scenarioNorm`. -/
def scenarioLib (inliers : List Int) (yaw : Rat) : Library where
  inverse := Matrix3d.cofactorInverse
  RodriguesVec := fun _ => ⟨0, 0, 0⟩
  RodriguesMat := fun _ => Matrix3d.identity
  solvePnPRansac := fun _ _ _ _ => ⟨false, ⟨0, 0, 0⟩, ⟨0, 0, 0⟩, inliers⟩
  R2ypr := fun R => if R = Matrix3d.identity then ⟨0, 0, 0⟩ else ⟨yaw, 0, 0⟩
  normalizeAngle := fun a => if 180 < a then a - 360 else if a ≤ -180 then a + 360 else a
  toQuaternion := fun R =>
    if R = Matrix3d.identity then ⟨1, 0, 0, 0⟩ else ⟨9990 / 10000, 0, 0, 436 / 10000⟩
  norm := scenarioNorm

/-- The old keyframe of the scenarios: a full keyframe with fifteen features, feature `i`
described by `blockDesc i`. -/
def scenarioOld : Keyframe where
  time_stamp := 1000
  index := 3
  sequence := 1
  is_vio_keyframe_ := true
  params_ := ⟨10, 460, 460, 320, 240⟩
  svin_T_w_i := ⟨0, 0, 0⟩
  svin_R_w_i := Matrix3d.identity
  T_w_i := ⟨0, 0, 0⟩
  R_w_i := Matrix3d.identity
  origin_svin_T := ⟨0, 0, 0⟩
  origin_svin_R := Matrix3d.identity
  point_3d := (List.range 15).map (fun i => ⟨i, 2 * i, 5⟩)
  point_2d_uv := (List.range 15).map (fun i => kpAt (10 * i) (10 * i + 1))
  point_ids_ := (List.range 15).map (fun i => ⟨i, 0, 0⟩)
  window_keypoints := (List.range 15).map (fun i => kpAt (10 * i) (10 * i + 1))
  window_keypoints_norm := (List.range 15).map (fun i => kpAt (i / 10) (i / 10 + 1 / 100))
  window_brief_descriptors := (List.range 15).map blockDesc
  keypoints := (List.range 15).map (fun i => kpAt (10 * i) (10 * i + 1))
  keypoints_norm := (List.range 15).map (fun i => kpAt (i / 10) (i / 10 + 1 / 100))
  brief_descriptors := (List.range 15).map blockDesc
  has_loop := false
  loop_index := -1
  has_fast_point := false
  loop_info := ⟨0, 0, 0, 0, 0, 0, 0, 0⟩
  KFcounter_ := []
  mConnectedKeyFrameWeights := []

/-- The current keyframe of the scenarios: fifteen window features with the descriptors
of the old keyframe, minimum correspondence count 10, captured with rotation `R` at
distance 2 from the origin, and holding an earlier loop to keyframe 1. -/
def scenarioCur (R : Matrix3d) : Keyframe :=
  { scenarioOld with
    time_stamp := 2000
    index := 7
    svin_T_w_i := ⟨2, 0, 0⟩
    svin_R_w_i := R
    T_w_i := ⟨2, 0, 0⟩
    R_w_i := R
    origin_svin_T := ⟨2, 0, 0⟩
    origin_svin_R := R
    point_2d_uv := (List.range 15).map (fun i => kpAt (10 * i + 3) (10 * i + 4))
    window_keypoints := (List.range 15).map (fun i => kpAt (10 * i + 3) (10 * i + 4))
    has_loop := true
    loop_index := 1
    loop_info := ⟨1, 1, 1, 1, 0, 0, 0, 5⟩ }

/-- The first `n` entries of every vector of a match set. -/
def MatchSet.take (n : Nat) (m : MatchSet) : MatchSet :=
  ⟨m.matched_2d_cur.take n, m.matched_2d_old.take n, m.matched_2d_old_norm.take n,
    m.matched_3d.take n, m.matched_ids.take n⟩

/-- The match set of the scenarios after descriptor matching: every window feature of the
current keyframe is matched to the feature of the old keyframe with the same index. -/
def scenarioMatched (R : Matrix3d) : MatchSet :=
  ⟨(scenarioCur R).point_2d_uv, scenarioOld.keypoints.map (fun k => k.pt),
    scenarioOld.keypoints_norm.map (fun k => k.pt), (scenarioCur R).point_3d,
    (scenarioCur R).point_ids_⟩

/-- The inlier rows `0, 1, ..., n - 1`. -/
def firstInliers (n : Nat) : List Int := (List.range n).map (fun i => (i : Int))

/-- Scenario B: all fifteen correspondences survive verification, relative yaw 10. -/
def libB : Library := scenarioLib (firstInliers 15) 10

/-- Scenario C: as scenario B, with relative yaw 40. -/
def libC : Library := scenarioLib (firstInliers 15) 40

/-- Ten of the fifteen correspondences survive verification, relative yaw 10: as many
as the minimum correspondence count. -/
def libTen : Library := scenarioLib (firstInliers 10) 10

/-- A keyframe whose adjacency row already holds an edge to the neighbour at address 7
with weight 30, while the current observation counts give that neighbour 5 shared
landmarks. -/
def staleRowKeyframe : Keyframe :=
  { scenarioOld with KFcounter_ := [(7, 5)], mConnectedKeyFrameWeights := [(7, 30)] }

/-- A keyframe with an empty adjacency row and three counted neighbours, with 20, 21 and
35 shared landmarks. -/
def freshRowKeyframe : Keyframe :=
  { scenarioOld with KFcounter_ := [(4, 20), (7, 21), (9, 35)], mConnectedKeyFrameWeights := [] }

/-- Feature extraction of the scenarios: the detector finds fifteen corners, and the
descriptor of the keypoint at position `i` of a list is `blockDesc i`. -/
def scenarioFeat : Features where
  brief := fun _ kps => (List.range kps.length).map blockDesc
  FAST := fun _ => (List.range 15).map (fun i => kpAt (10 * i) (10 * i + 1))

/-- A two by two grey image. -/
def scenarioImage : Image := [[0, 255], [255, 0]]

/-- A full keyframe built by the first constructor with fifteen points, minimum
correspondence count `min`, the given index, position, rotation and observation counts. -/
def builtKeyframe (index min : Int) (T : Vector3d) (R : Matrix3d) (KFcounter : KFMap) :
    Keyframe :=
  Keyframe.construct scenarioFeat 1000 ((List.range 15).map (fun i => ⟨i, 0, 0⟩)) index T R
    scenarioImage ((List.range 15).map (fun i => ⟨i, 2 * i, 5⟩))
    ((List.range 15).map (fun i => kpAt (10 * i + 3) (10 * i + 4))) KFcounter 1
    ⟨min, 460, 460, 320, 240⟩ true

/-- The library of the scenarios with no rotation between the keyframes: all fifteen
correspondences are inliers and every yaw is 0. -/
def libSame : Library := scenarioLib (firstInliers 15) 0

/-- A library whose solver throws: it leaves `rvec` and `t` at the initial guess and the
`inliers` matrix empty; the other routines are those of `libSame`. -/
def libThrow : Library :=
  { libSame with solvePnPRansac := fun _ _ rvec t => ⟨true, rvec, t, []⟩ }

/-- A keyframe whose adjacency row holds an edge to the neighbour at address 7 with
weight 30, while the current observation counts give that neighbour 25 shared landmarks
and the neighbour at address 9, absent from the row, 40. -/
def heavierRowKeyframe : Keyframe :=
  { scenarioOld with KFcounter_ := [(7, 25), (9, 40)], mConnectedKeyFrameWeights := [(7, 30)] }

/-- The current keyframe of scenario B, built by the first constructor. -/
def builtCur : Keyframe := builtKeyframe 7 10 ⟨2, 0, 0⟩ rotZ10 []

/-- The keyframe left by `findConnection` on `builtCur` with the candidate of the given
index, built by the first constructor at the origin, in scenario B. -/
def loopedTo (index : Int) : Keyframe :=
  findConnection.accepted libB builtCur (builtKeyframe index 10 ⟨0, 0, 0⟩ Matrix3d.identity [])
    ⟨0, 0, 0⟩ Matrix3d.identity

/-- A keyframe built by the first constructor at the origin, with index 3. -/
def builtSelf : Keyframe := builtKeyframe 3 10 ⟨0, 0, 0⟩ Matrix3d.identity []

/-- The keyframe left by `findConnection` on `builtSelf` with `builtSelf` itself as the
candidate. -/
def loopedToSelf : Keyframe :=
  findConnection.accepted libSame builtSelf builtSelf ⟨0, 0, 0⟩ Matrix3d.identity

/-- A keyframe built by the first constructor at distance 2 from the origin, with no
rotation and minimum correspondence count `min`. -/
def builtPlain (min : Int) : Keyframe := builtKeyframe 7 min ⟨2, 0, 0⟩ Matrix3d.identity []

/-- The match set left by descriptor matching between `builtPlain min` and `builtSelf`:
every window feature is matched to the feature of `builtSelf` with the same index. -/
def builtMatched (min : Int) : MatchSet :=
  ⟨(builtPlain min).point_2d_uv, builtSelf.keypoints.map (fun k => k.pt),
    builtSelf.keypoints_norm.map (fun k => k.pt), (builtPlain min).point_3d,
    (builtPlain min).point_ids_⟩

/-- A keyframe built by the first constructor with no rotation, minimum correspondence
count 10 and the position `T`. -/
def builtAt (T : Vector3d) : Keyframe := builtKeyframe 7 10 T Matrix3d.identity []
/-! # Properties

## Hamming distance and the descriptor matcher -/

/-- Counting over `Finset.range` and over `List.range` agree. -/
theorem card_filter_range_eq_countP (p : Nat → Bool) (n : Nat) :
    ((Finset.range n).filter (fun i => p i = true)).card = (List.range n).countP p := by
  simp [Finset.card, Finset.filter, Finset.range, Multiset.range, Multiset.countP_eq_card_filter, List.countP_eq_length_filter]

/-- A bit of the exclusive or is set where the operands differ. -/
theorem bitset.test_xor (a b : bitset) (i : Nat) :
    (bitset.xor a b).test i = (a.test i != b.test i) := by
  simp [bitset.xor, bitset.test, Nat.testBit_xor]

/-- C2. For all 256-bit descriptors `a` and `b`, `HammingDis a b` is the number of set
bits of `a XOR b` (a bit of the XOR is set exactly where `a` and `b` differ, and none is
set at position 256 or above), it is symmetric, and `HammingDis a a = 0`. -/
theorem HammingDis_popcount_symm_self (a b : bitset) :
    HammingDis a b
        = (((Finset.range 256).filter (fun i => (bitset.xor a b).test i = true)).card : Int) ∧
      (∀ i, (bitset.xor a b).test i = true ↔ a.test i ≠ b.test i) ∧
      (∀ i, 256 ≤ i → (bitset.xor a b).test i = false) ∧
      HammingDis a b = HammingDis b a ∧
      HammingDis a a = 0 := by
  refine ⟨?_, ?_, ?_, ?_, ?_⟩
  · rw [card_filter_range_eq_countP]; rfl
  · intro i; simp [bitset.test_xor]
  · intro i hi
    have h : (bitset.xor a b).val < 2 ^ i :=
      lt_of_lt_of_le (bitset.xor a b).isLt (Nat.pow_le_pow_right (by decide) hi)
    exact Nat.testBit_lt_two_pow h
  · simp [HammingDis, bitset.xor, Nat.xor_comm]
  · simp [HammingDis, bitset.xor, bitset.count, bitset.test]

/-- What the scan of `searchInAera` returns. -/
theorem searchInAera.scan_spec (q : bitset) (ds : List bitset) :
    ∀ (i bestDist bestIndex : Int),
      ((searchInAera.scan q ds i bestDist bestIndex).1 ≤ bestDist ∧
        ∀ e ∈ ds, (searchInAera.scan q ds i bestDist bestIndex).1 ≤ HammingDis q e) ∧
      (searchInAera.scan q ds i bestDist bestIndex = (bestDist, bestIndex) ∨
        ((searchInAera.scan q ds i bestDist bestIndex).1 < bestDist ∧
          ∃ (k : Nat) (d : bitset), ds[k]? = some d ∧
            (searchInAera.scan q ds i bestDist bestIndex).2 = i + k ∧
            HammingDis q d = (searchInAera.scan q ds i bestDist bestIndex).1 ∧
            ∀ (j : Nat) (e : bitset), j < k → ds[j]? = some e →
              (searchInAera.scan q ds i bestDist bestIndex).1 < HammingDis q e)) := by
  induction ds with
  | nil => intro i bd bi; simp [searchInAera.scan]
  | cons d rest ih =>
    intro i bd bi
    by_cases hlt : HammingDis q d < bd
    · have hs : searchInAera.scan q (d :: rest) i bd bi
          = searchInAera.scan q rest (i + 1) (HammingDis q d) i := by
        simp [searchInAera.scan, hlt]
      rw [hs]
      obtain ⟨⟨h1, h2⟩, h3⟩ := ih (i + 1) (HammingDis q d) i
      refine ⟨⟨by omega, ?_⟩, Or.inr ?_⟩
      · intro e he
        rcases List.mem_cons.1 he with rfl | he
        · exact h1
        · exact h2 e he
      · rcases h3 with h3 | ⟨h3, k, d', hk, hidx, hd, hmin⟩
        · refine ⟨by rw [h3]; exact hlt, 0, d, by simp, by rw [h3]; simp, by rw [h3], ?_⟩
          intro j e hj; omega
        · refine ⟨by omega, k + 1, d', by simpa using hk, by rw [hidx]; push_cast; ring, hd, ?_⟩
          intro j e hj hje
          cases j with
          | zero => simp at hje; subst hje; exact h3
          | succ j => exact hmin j e (by omega) (by simpa using hje)
    · have hs : searchInAera.scan q (d :: rest) i bd bi
          = searchInAera.scan q rest (i + 1) bd bi := by
        simp [searchInAera.scan, hlt]
      rw [hs]
      obtain ⟨⟨h1, h2⟩, h3⟩ := ih (i + 1) bd bi
      refine ⟨⟨h1, ?_⟩, ?_⟩
      · intro e he
        rcases List.mem_cons.1 he with rfl | he
        · omega
        · exact h2 e he
      · rcases h3 with h3 | ⟨h3, k, d', hk, hidx, hd, hmin⟩
        · exact Or.inl h3
        · refine Or.inr ⟨h3, k + 1, d', by simpa using hk, by rw [hidx]; push_cast; ring, hd, ?_⟩
          intro j e hj hje
          cases j with
          | zero => simp at hje; subst hje; omega
          | succ j => exact hmin j e (by omega) (by simpa using hje)


/-- The decision of `searchInAera` in terms of the scan result. -/
theorem searchInAera_eq (q : bitset) (ds : List bitset) (kps kpns : List KeyPoint)
    (bm bmn : Point2f) :
    searchInAera q ds kps kpns bm bmn =
      if (searchInAera.scan q ds 0 128 (-1)).2 ≠ -1 ∧ (searchInAera.scan q ds 0 128 (-1)).1 < 80 then
        match kps[(searchInAera.scan q ds 0 128 (-1)).2.toNat]?,
            kpns[(searchInAera.scan q ds 0 128 (-1)).2.toNat]? with
        | some k, some kn => some (true, k.pt, kn.pt)
        | _, _ => none
      else some (false, bm, bmn) := rfl

/-- C1. With a keypoint and a normalized keypoint at the index of every candidate
descriptor, `searchInAera` returns true exactly when the minimum Hamming distance from
the query to a candidate is below 80; it then returns the position and normalized
position of the lowest-index candidate attaining that minimum, and otherwise (an empty
candidate list included) leaves `best_match` and `best_match_norm` as they were. A query
identical to a candidate, every other candidate being at distance 81 or more, is matched
to that candidate. -/
theorem searchInAera_best_match (q : bitset) (ds : List bitset) (kps kpns : List KeyPoint)
    (bm bmn : Point2f) (hk : ds.length ≤ kps.length) (hkn : ds.length ≤ kpns.length) :
    ∃ (found : Bool) (pt pt_norm : Point2f),
      searchInAera q ds kps kpns bm bmn = some (found, pt, pt_norm) ∧
      (found = true ↔
        ∃ d ∈ ds, (∀ e ∈ ds, HammingDis q d ≤ HammingDis q e) ∧ HammingDis q d < 80) ∧
      (found = true →
        ∃ (k : Nat) (d : bitset) (kp kpn : KeyPoint),
          ds[k]? = some d ∧ kps[k]? = some kp ∧ kpns[k]? = some kpn ∧
          (∀ e ∈ ds, HammingDis q d ≤ HammingDis q e) ∧
          (∀ (j : Nat) (e : bitset), j < k → ds[j]? = some e →
            HammingDis q d < HammingDis q e) ∧
          pt = kp.pt ∧ pt_norm = kpn.pt) ∧
      (found = false → pt = bm ∧ pt_norm = bmn) ∧
      (∀ (k : Nat) (kp kpn : KeyPoint),
        ds[k]? = some q → kps[k]? = some kp → kpns[k]? = some kpn →
        (∀ (j : Nat) (e : bitset), j ≠ k → ds[j]? = some e → 81 ≤ HammingDis q e) →
        found = true ∧ pt = kp.pt ∧ pt_norm = kpn.pt) := by
  obtain ⟨⟨h1, h2⟩, h3⟩ := searchInAera.scan_spec q ds 0 128 (-1)
  rw [searchInAera_eq]
  rcases h3 with h3 | ⟨h3, k, d, hkd, hidx, hd, hmin⟩
  · -- nothing was recorded: every candidate is at distance 128 or more
    rw [h3] at h2 ⊢
    simp only [ne_eq, not_true_eq_false, false_and, if_false]
    refine ⟨false, bm, bmn, rfl, ?_, by simp, by simp, ?_⟩
    · simp only [Bool.false_eq_true, false_iff, not_exists, not_and, not_lt]
      intro d hd _
      have := h2 d hd
      simp only at this; omega
    · intro k kp kpn hq _ _ _
      have := h2 q (List.getElem?_mem hq)
      have h0 : HammingDis q q = 0 := by
        simp [HammingDis, bitset.xor, bitset.count, bitset.test]
      simp only at this; omega
  · -- candidate `k` was recorded with the minimum distance
    have hklt : k < ds.length := by
      rcases Nat.lt_or_ge k ds.length with h | h
      · exact h
      · rw [List.getElem?_eq_none h] at hkd; cases hkd
    have hnat : (searchInAera.scan q ds 0 128 (-1)).2.toNat = k := by rw [hidx]; simp
    have hne : (searchInAera.scan q ds 0 128 (-1)).2 ≠ -1 := by rw [hidx]; omega
    obtain ⟨kp, hkp⟩ : ∃ kp, kps[k]? = some kp :=
      ⟨kps[k], List.getElem?_eq_getElem (by omega)⟩
    obtain ⟨kpn, hkpn⟩ : ∃ kpn, kpns[k]? = some kpn :=
      ⟨kpns[k], List.getElem?_eq_getElem (by omega)⟩
    have hdmem : d ∈ ds := List.getElem?_mem hkd
    by_cases h80 : (searchInAera.scan q ds 0 128 (-1)).1 < 80
    · rw [if_pos ⟨hne, h80⟩, hnat, hkp, hkpn]
      refine ⟨true, kp.pt, kpn.pt, rfl, ?_, ?_, by simp, ?_⟩
      · simp only [true_iff]
        exact ⟨d, hdmem, fun e he => by rw [hd]; exact h2 e he, by rw [hd]; exact h80⟩
      · intro _
        exact ⟨k, d, kp, kpn, hkd, hkp, hkpn, fun e he => by rw [hd]; exact h2 e he,
          fun j e hj hje => by rw [hd]; exact hmin j e hj hje, rfl, rfl⟩
      · intro k' kp' kpn' hq hkp' hkpn' hfar
        have hkk : k' = k := by
          by_contra hne'
          have := hfar k d (fun h => hne' h.symm) hkd
          omega
        subst hkk
        rw [hkp] at hkp'; rw [hkpn] at hkpn'
        cases hkp'; cases hkpn'
        exact ⟨rfl, rfl, rfl⟩
    · rw [if_neg (fun h => h80 h.2)]
      refine ⟨false, bm, bmn, rfl, ?_, by simp, by simp, ?_⟩
      · simp only [Bool.false_eq_true, false_iff, not_exists, not_and, not_lt]
        intro e he _
        have := h2 e he
        omega
      · intro k' kp' kpn' hq _ _ _
        have := h2 q (List.getElem?_mem hq)
        have h0 : HammingDis q q = 0 := by
          simp [HammingDis, bitset.xor, bitset.count, bitset.test]
        omega


/-- Scenario A, through `searchInAera_best_match`: the query `desc0` is found in `poolA`
at the position of its identical copy. -/
theorem searchInAera_best_match_witness :
    poolA.length ≤ poolA_keypoints.length ∧ poolA.length ≤ poolA_keypoints_norm.length ∧
    ∃ (found : Bool) (pt pt_norm : Point2f),
      searchInAera desc0 poolA poolA_keypoints poolA_keypoints_norm ⟨7, 7⟩ ⟨8, 8⟩
        = some (found, pt, pt_norm) ∧
      (found = true ↔
        ∃ d ∈ poolA, (∀ e ∈ poolA, HammingDis desc0 d ≤ HammingDis desc0 e) ∧
          HammingDis desc0 d < 80) ∧
      (found = false → pt = ⟨7, 7⟩ ∧ pt_norm = ⟨8, 8⟩) := by
  refine ⟨by decide, by decide, ?_⟩
  obtain ⟨found, pt, pt_norm, h, hiff, _, hfalse, _⟩ :=
    searchInAera_best_match desc0 poolA poolA_keypoints poolA_keypoints_norm ⟨7, 7⟩ ⟨8, 8⟩
      (by decide) (by decide)
  exact ⟨found, pt, pt_norm, h, hiff, hfalse⟩
/-! ## The batch matcher `searchByBRIEFDes` -/

/-- Under index alignment `searchInAera` reads inside its keypoint vectors, and a
failed search hands back the points it was given. -/
theorem searchInAera_defined (q : bitset) (ds : List bitset) (kps kpns : List KeyPoint)
    (bm bmn : Point2f) (hk : ds.length ≤ kps.length) (hkn : ds.length ≤ kpns.length) :
    ∃ (found : Bool) (pt pt_norm : Point2f),
      searchInAera q ds kps kpns bm bmn = some (found, pt, pt_norm) ∧
      (found = false → pt = bm ∧ pt_norm = bmn) := by
  obtain ⟨_, h3⟩ := searchInAera.scan_spec q ds 0 128 (-1)
  rw [searchInAera_eq]
  split_ifs with hc
  · rcases h3 with h3 | ⟨h3, k, d, hkd, hidx, _, _⟩
    · rw [h3] at hc; exact absurd rfl hc.1
    · have hklt : k < ds.length := by
        rcases Nat.lt_or_ge k ds.length with h | h
        · exact h
        · rw [List.getElem?_eq_none h] at hkd; cases hkd
      have hnat : (searchInAera.scan q ds 0 128 (-1)).2.toNat = k := by rw [hidx]; simp
      rw [hnat, List.getElem?_eq_getElem (show k < kps.length by omega),
        List.getElem?_eq_getElem (show k < kpns.length by omega)]
      exact ⟨true, _, _, rfl, by simp⟩
  · exact ⟨false, bm, bmn, rfl, fun _ => ⟨rfl, rfl⟩⟩

/-- The loop of `searchByBRIEFDes` appends one entry per window descriptor to each of
its three output vectors. -/
theorem searchByBRIEFDes.loop_appends (ds : List bitset) (kps kpns : List KeyPoint)
    (hk : ds.length ≤ kps.length) (hkn : ds.length ≤ kpns.length) (ws : List bitset) :
    ∀ (m mn : List Point2f) (st : List Nat),
      ∃ (pts ptns : List Point2f) (sts : List Nat),
        searchByBRIEFDes.loop ds kps kpns ws m mn st = some (m ++ pts, mn ++ ptns, st ++ sts) ∧
        pts.length = ws.length ∧ ptns.length = ws.length ∧ sts.length = ws.length ∧
        ∀ (i : Nat) (w : bitset), ws[i]? = some w →
          ∃ (found : Bool) (pt pt_norm : Point2f),
            searchInAera w ds kps kpns ⟨0, 0⟩ ⟨0, 0⟩ = some (found, pt, pt_norm) ∧
            pts[i]? = some pt ∧ ptns[i]? = some pt_norm ∧
            sts[i]? = some (if found then 1 else 0) := by
  induction ws with
  | nil =>
    intro m mn st
    exact ⟨[], [], [], by simp [searchByBRIEFDes.loop], rfl, rfl, rfl, by simp⟩
  | cons w rest ih =>
    intro m mn st
    obtain ⟨found, pt, ptn, hs, _⟩ := searchInAera_defined w ds kps kpns ⟨0, 0⟩ ⟨0, 0⟩ hk hkn
    obtain ⟨pts, ptns, sts, hl, h1, h2, h3, h4⟩ :=
      ih (m ++ [pt]) (mn ++ [ptn]) (st ++ [if found then 1 else 0])
    refine ⟨pt :: pts, ptn :: ptns, (if found then 1 else 0) :: sts, ?_, by simp [h1],
      by simp [h2], by simp [h3], ?_⟩
    · simp only [searchByBRIEFDes.loop, hs, hl, List.append_assoc, List.singleton_append]
    · intro i w' hw
      cases i with
      | zero =>
        simp only [List.getElem?_cons_zero, Option.some.injEq] at hw
        subst hw
        exact ⟨found, pt, ptn, hs, by simp, by simp, by simp⟩
      | succ i =>
        simp only [List.getElem?_cons_succ] at hw
        simpa using h4 i w' hw

/-- C3. Called with empty output vectors on a keyframe with `n` window descriptors and
an old candidate set with a keypoint and a normalized keypoint at the index of every
descriptor, `searchByBRIEFDes` returns three vectors of length
exactly `n`; entry `i` of `status` is 1 exactly when `searchInAera` finds a match for
window descriptor `i`, the two point vectors then hold that match, and otherwise `status`
holds 0 and both vectors hold the null point `(0, 0)`. -/
theorem searchByBRIEFDes_one_entry_per_descriptor (ws ds : List bitset)
    (kps kpns : List KeyPoint) (hk : ds.length ≤ kps.length) (hkn : ds.length ≤ kpns.length) :
    ∃ (m mn : List Point2f) (st : List Nat),
      searchByBRIEFDes ws [] [] [] ds kps kpns = some (m, mn, st) ∧
      m.length = ws.length ∧ mn.length = ws.length ∧ st.length = ws.length ∧
      ∀ (i : Nat) (w : bitset), ws[i]? = some w →
        ∃ (found : Bool) (pt pt_norm : Point2f),
          searchInAera w ds kps kpns ⟨0, 0⟩ ⟨0, 0⟩ = some (found, pt, pt_norm) ∧
          m[i]? = some pt ∧ mn[i]? = some pt_norm ∧
          (st[i]? = some 1 ↔ found = true) ∧
          (found = false → st[i]? = some 0 ∧ pt = ⟨0, 0⟩ ∧ pt_norm = ⟨0, 0⟩) := by
  obtain ⟨pts, ptns, sts, hl, h1, h2, h3, h4⟩ :=
    searchByBRIEFDes.loop_appends ds kps kpns hk hkn ws [] [] []
  refine ⟨pts, ptns, sts, by simpa [searchByBRIEFDes] using hl, h1, h2, h3, ?_⟩
  intro i w hw
  obtain ⟨found, pt, ptn, hs, hp, hpn, hst⟩ := h4 i w hw
  obtain ⟨found', pt', ptn', hs', hnull⟩ :=
    searchInAera_defined w ds kps kpns ⟨0, 0⟩ ⟨0, 0⟩ hk hkn
  rw [hs] at hs'
  cases hs'
  refine ⟨found, pt, ptn, hs, hp, hpn, ?_, ?_⟩
  · rw [hst]; cases found <;> simp
  · intro hf
    exact ⟨by rw [hst, hf]; rfl, hnull hf⟩

/-- The batch matcher on three window descriptors against the single candidate `desc0`:
`searchByBRIEFDes_one_entry_per_descriptor` applies, and the outputs have three entries. -/
theorem searchByBRIEFDes_one_entry_per_descriptor_witness :
    [desc0].length ≤ [kpAt 1 2].length ∧ [desc0].length ≤ [kpAt 3 4].length ∧
    searchByBRIEFDes [desc0, desc81, desc3] [] [] [] [desc0] [kpAt 1 2] [kpAt 3 4]
      = some ([⟨1, 2⟩, ⟨0, 0⟩, ⟨1, 2⟩], [⟨3, 4⟩, ⟨0, 0⟩, ⟨3, 4⟩], [1, 0, 1]) ∧
    ∃ (m mn : List Point2f) (st : List Nat),
      searchByBRIEFDes [desc0, desc81, desc3] [] [] [] [desc0] [kpAt 1 2] [kpAt 3 4]
        = some (m, mn, st) ∧
      m.length = 3 ∧ mn.length = 3 ∧ st.length = 3 := by
  refine ⟨by decide, by decide, by decide!, ?_⟩
  obtain ⟨m, mn, st, h, h1, h2, h3, _⟩ :=
    searchByBRIEFDes_one_entry_per_descriptor [desc0, desc81, desc3] [desc0] [kpAt 1 2]
      [kpAt 3 4] (by decide) (by decide)
  exact ⟨m, mn, st, h, h1, h2, h3⟩
/-! ## The mask filter `reduceVector` -/

/-- A nonzero mask entry keeps the head. -/
theorem keptBy_cons_ne {α : Type} (x : α) (v : List α) (s : Nat) (st : List Nat) (hs : s ≠ 0) :
    keptBy (x :: v) (s :: st) = x :: keptBy v st := by
  simp [keptBy, hs]

/-- A zero mask entry drops the head. -/
theorem keptBy_cons_zero {α : Type} (x : α) (v : List α) (st : List Nat) :
    keptBy (x :: v) (0 :: st) = keptBy v st := by
  simp [keptBy]

/-- The kept elements as a filter of the vector zipped with the mask. -/
theorem keptBy_eq_filter {α : Type} (v : List α) :
    ∀ st : List Nat,
      keptBy v st = ((v.zip st).filter (fun p => decide (p.2 ≠ 0))).map Prod.fst := by
  induction v with
  | nil => intro st; simp [keptBy]
  | cons x v ih =>
    intro st
    cases st with
    | nil => simp [keptBy]
    | cons s st =>
      by_cases hs : s = 0
      · subst hs; rw [keptBy_cons_zero, ih]; simp
      · rw [keptBy_cons_ne x v s st hs, ih]; simp [hs]

/-- The kept elements are a subsequence of the vector. -/
theorem keptBy_sublist {α : Type} (v : List α) : ∀ st : List Nat, (keptBy v st).Sublist v := by
  induction v with
  | nil => intro st; simp [keptBy]
  | cons x v ih =>
    intro st
    cases st with
    | nil => simp [keptBy]
    | cons s st =>
      by_cases hs : s = 0
      · subst hs; rw [keptBy_cons_zero]; exact (ih st).cons x
      · rw [keptBy_cons_ne x v s st hs]; exact (ih st).cons₂ x

/-- The number of kept elements is the number of nonzero mask entries met. -/
theorem keptBy_length {α : Type} (v : List α) :
    ∀ st : List Nat, v.length ≤ st.length →
      (keptBy v st).length = (st.take v.length).countP (fun s => decide (s ≠ 0)) := by
  induction v with
  | nil => intro st _; simp [keptBy]
  | cons x v ih =>
    intro st hlen
    cases st with
    | nil => simp at hlen
    | cons s st =>
      have hlen' : v.length ≤ st.length := by simpa using hlen
      by_cases hs : s = 0
      · subst hs; rw [keptBy_cons_zero, ih st hlen']; simp
      · rw [keptBy_cons_ne x v s st hs]
        simp [ih st hlen', List.countP_cons, hs]

/-- Filtering pairs is pairing the filtered vectors, for vectors of equal length. -/
theorem keptBy_zip {α β : Type} (v : List α) :
    ∀ (u : List β) (st : List Nat),
      keptBy (v.zip u) st = (keptBy v st).zip (keptBy u st) ∨ v.length ≠ u.length := by
  induction v with
  | nil =>
    intro u st
    cases u with
    | nil => left; simp [keptBy]
    | cons y u => right; simp
  | cons x v ih =>
    intro u st
    cases u with
    | nil => right; simp
    | cons y u =>
      cases st with
      | nil => left; simp [keptBy]
      | cons s st =>
        rcases ih u st with h | h
        · left
          by_cases hs : s = 0
          · subst hs; simp only [List.zip_cons_cons, keptBy_cons_zero, h]
          · simp only [List.zip_cons_cons, keptBy_cons_ne _ _ s st hs, h]
        · right; simpa using h

/-- The loop of `reduceVector`, started with read index `i` and write index `j ≤ i`,
stays inside both vectors and leaves the kept elements of `v.drop i` right after the
first `j` elements of `v`. -/
theorem reduceVector.loop_compacts {α : Type} (status : List Nat) :
    ∀ (n i j : Nat) (v : List α), i + n = v.length → j ≤ i → v.length ≤ status.length →
      ∃ w : List α,
        reduceVector.loop status n i j v
            = some (w, j + (keptBy (v.drop i) (status.drop i)).length) ∧
        w.take (j + (keptBy (v.drop i) (status.drop i)).length)
            = v.take j ++ keptBy (v.drop i) (status.drop i) := by
  intro n
  induction n with
  | zero =>
    intro i j v hi hj hlen
    have : v.drop i = [] := List.drop_eq_nil_of_le (by omega)
    refine ⟨v, ?_, ?_⟩ <;> simp [reduceVector.loop, this, keptBy]
  | succ n ih =>
    intro i j v hi hj hlen
    have hiv : i < v.length := by omega
    have his : i < status.length := by omega
    have hv : v.drop i = v[i] :: v.drop (i + 1) := List.drop_eq_getElem_cons hiv
    have hst : status.drop i = status[i] :: status.drop (i + 1) := List.drop_eq_getElem_cons his
    rw [hv, hst]
    by_cases hs : status[i] = 0
    · obtain ⟨w, hw1, hw2⟩ := ih (i + 1) j v (by omega) (by omega) hlen
      refine ⟨w, ?_, ?_⟩
      · simp only [reduceVector.loop, List.getElem?_eq_getElem his, List.getElem?_eq_getElem hiv,
          hs, ne_eq, not_true_eq_false, if_false]
        rw [hw1, keptBy_cons_zero]
      · rw [hs, keptBy_cons_zero]; exact hw2
    · obtain ⟨w, hw1, hw2⟩ :=
        ih (i + 1) (j + 1) (v.set j v[i]) (by simp; omega) (by omega) (by simpa using hlen)
      have hdrop : (v.set j v[i]).drop (i + 1) = v.drop (i + 1) := by
        rw [List.drop_set]; simp [show j < i + 1 by omega]
      have htake : (v.set j v[i]).take (j + 1) = v.take j ++ [v[i]] := by
        rw [List.set_eq_take_append_cons_drop, if_pos (show j < v.length by omega),
          show v.take j ++ v[i] :: v.drop (j + 1) = (v.take j ++ [v[i]]) ++ v.drop (j + 1) by simp]
        exact List.take_left' (by simp; omega)
      rw [hdrop] at hw1 hw2
      rw [htake] at hw2
      refine ⟨w, ?_, ?_⟩
      · simp only [reduceVector.loop, List.getElem?_eq_getElem his, List.getElem?_eq_getElem hiv,
          ne_eq, hs, not_false_eq_true, if_true]
        rw [hw1, keptBy_cons_ne _ _ _ _ hs]
        simp only [List.length_cons]
        congr 2; omega
      · rw [keptBy_cons_ne _ _ _ _ hs]
        simp only [List.length_cons]
        rw [show j + ((keptBy (v.drop (i + 1)) (status.drop (i + 1))).length + 1)
            = j + 1 + (keptBy (v.drop (i + 1)) (status.drop (i + 1))).length by omega, hw2]
        simp

/-- With a mask at least as long as the vector, `reduceVector` returns the kept elements. -/
theorem reduceVector_eq_keptBy {α : Type} (v : List α) (status : List Nat)
    (h : v.length ≤ status.length) : reduceVector v status = some (keptBy v status) := by
  obtain ⟨w, hw1, hw2⟩ := reduceVector.loop_compacts status v.length 0 0 v (by simp) (le_refl 0) h
  simp only [List.drop_zero, Nat.zero_add, List.take_zero, List.nil_append] at hw1 hw2
  simp only [reduceVector, hw1, hw2]

/-- C4. With a status mask at least as long as `v`, `reduceVector` leaves in `v` exactly
the elements whose mask entry is nonzero, in their original order, so the new length is
the number of nonzero entries among the first `|v|` mask entries; a parallel vector `u`
of the same length filtered by the same mask has the same new length, and stays
index-aligned: filtering the vector of pairs gives the pairs of the filtered vectors. -/
theorem reduceVector_filters_by_mask {α β : Type} (v : List α) (u : List β)
    (status : List Nat) (h : v.length ≤ status.length) (hu : u.length = v.length) :
    ∃ (v' : List α) (u' : List β),
      reduceVector v status = some v' ∧ reduceVector u status = some u' ∧
      v' = ((v.zip status).filter (fun p => decide (p.2 ≠ 0))).map Prod.fst ∧
      v'.Sublist v ∧
      v'.length = (status.take v.length).countP (fun s => decide (s ≠ 0)) ∧
      u'.length = v'.length ∧
      reduceVector (v.zip u) status = some (v'.zip u') := by
  refine ⟨keptBy v status, keptBy u status, reduceVector_eq_keptBy v status h,
    reduceVector_eq_keptBy u status (by omega), keptBy_eq_filter v status,
    keptBy_sublist v status, keptBy_length v status h, ?_, ?_⟩
  · rw [keptBy_length v status h, keptBy_length u status (by omega), hu]
  · rw [reduceVector_eq_keptBy (v.zip u) status (by simp; omega)]
    rcases keptBy_zip v u status with hz | hz
    · rw [hz]
    · exact absurd hu.symm hz

/-- Two parallel vectors of four entries filtered by a mask of five entries:
`reduceVector_filters_by_mask` applies, and both keep their first and last entry. -/
theorem reduceVector_filters_by_mask_witness :
    [10, 20, 30, 40].length ≤ [1, 0, 0, 5, 1].length ∧
    ["a", "b", "c", "d"].length = [10, 20, 30, 40].length ∧
    reduceVector [10, 20, 30, 40] [1, 0, 0, 5, 1] = some [10, 40] ∧
    reduceVector ["a", "b", "c", "d"] [1, 0, 0, 5, 1] = some ["a", "d"] ∧
    ∃ (v' : List Nat) (u' : List String),
      reduceVector [10, 20, 30, 40] [1, 0, 0, 5, 1] = some v' ∧
      reduceVector ["a", "b", "c", "d"] [1, 0, 0, 5, 1] = some u' ∧
      u'.length = v'.length ∧
      reduceVector ([10, 20, 30, 40].zip ["a", "b", "c", "d"]) [1, 0, 0, 5, 1]
        = some (v'.zip u') := by
  refine ⟨by decide, by decide, by decide, by decide, ?_⟩
  obtain ⟨v', u', hv, hu, _, _, _, hlen, hzip⟩ :=
    reduceVector_filters_by_mask [10, 20, 30, 40] ["a", "b", "c", "d"] [1, 0, 0, 5, 1]
      (by decide) (by decide)
  exact ⟨v', u', hv, hu, hlen, hzip⟩
/-! ## The loop-closure decision `findConnection` -/

/-- A squared norm below the square of a positive bound gives a Euclidean norm below the
bound. -/
theorem Vector3d.sqrt_squaredNorm_lt (v : Vector3d) (c : Rat) (hc : 0 < c)
    (h : v.squaredNorm < c * c) : Real.sqrt ((v.squaredNorm : Rat) : Real) < (c : Real) := by
  have hc' : (0 : Real) < (c : Real) := by exact_mod_cast hc
  rw [Real.sqrt_lt' hc']
  have : ((v.squaredNorm : Rat) : Real) < ((c * c : Rat) : Real) := by exact_mod_cast h
  simpa [pow_two] using this

/-- A squared norm at or above the square of a positive bound gives a Euclidean norm at
or above the bound. -/
theorem Vector3d.le_sqrt_squaredNorm (v : Vector3d) (c : Rat) (hc : 0 < c)
    (h : c * c ≤ v.squaredNorm) : (c : Real) ≤ Real.sqrt ((v.squaredNorm : Rat) : Real) := by
  have hc' : (0 : Real) < (c : Real) := by exact_mod_cast hc
  rw [Real.le_sqrt' hc']
  have : ((c * c : Rat) : Real) ≤ ((v.squaredNorm : Rat) : Real) := by exact_mod_cast h
  simpa [pow_two] using this

/-- When the verification block returns a pose, the correspondence count before it was
above the minimum. -/
theorem findConnection.geometricallyVerified_pose (lib : Library) (self : Keyframe)
    (m m2 : MatchSet) (T : Vector3d) (R : Matrix3d)
    (h : findConnection.geometricallyVerified lib self m = some (m2, some (T, R))) :
    self.params_.min_correspondences < (m.matched_2d_cur.length : Int) := by
  unfold findConnection.geometricallyVerified at h
  split_ifs at h with hc
  · exact hc
  · simp at h

/-- When the verification block is entered and completes, it returns a pose. -/
theorem findConnection.geometricallyVerified_some (lib : Library) (self : Keyframe)
    (m m2 : MatchSet) (pose : Option (Vector3d × Matrix3d))
    (hc : self.params_.min_correspondences < (m.matched_2d_cur.length : Int))
    (h : findConnection.geometricallyVerified lib self m = some (m2, pose)) :
    ∃ T R, pose = some (T, R) := by
  unfold findConnection.geometricallyVerified at h
  rw [if_pos hc] at h
  simp only [Option.bind_eq_bind, Option.pure_def, Option.bind_eq_some] at h
  obtain ⟨⟨st, T, R⟩, _, _, _, _, _, _, _, _, _, _, _, h⟩ := h
  simp only [Option.some.injEq, Prod.mk.injEq] at h
  exact ⟨T, R, h.2.symm⟩

/-- The gate with a pose at hand. -/
theorem findConnection.gate_pose (lib : Library) (self old_kf : Keyframe) (m : MatchSet)
    (T : Vector3d) (R : Matrix3d) :
    findConnection.gate lib self old_kf m (some (T, R)) =
      if (m.matched_2d_cur.length : Int) > self.params_.min_correspondences then
        if |findConnection.relative_yaw lib self R| < 25 ∧
            lib.norm (findConnection.relative_t self T R) < 15 then
          some (true, findConnection.accepted lib self old_kf T R)
        else some (false, self)
      else some (false, self) := rfl

/-- The result of `findConnection` once the two stages have completed. -/
theorem findConnection_of_stages (lib : Library) (self old_kf : Keyframe) (m1 m2 : MatchSet)
    (pose : Option (Vector3d × Matrix3d)) (hold : old_kf.is_vio_keyframe_ = true)
    (h1 : findConnection.descriptorMatched self old_kf = some m1)
    (h2 : findConnection.geometricallyVerified lib self m1 = some (m2, pose)) :
    findConnection lib self old_kf = findConnection.gate lib self old_kf m2 pose := by
  unfold findConnection
  simp only [hold, Bool.not_true, Bool.false_eq_true, if_false, h1, h2, Option.bind_eq_bind,
    Option.some_bind]

/-- Every completed attempt decomposes into its stages. -/
theorem findConnection_stages (lib : Library) (self old_kf : Keyframe) (b : Bool)
    (kf : Keyframe) (h : findConnection lib self old_kf = some (b, kf)) :
    (old_kf.is_vio_keyframe_ = false ∧ b = false ∧ kf = self) ∨
    (old_kf.is_vio_keyframe_ = true ∧ ∃ (m1 m2 : MatchSet) (pose : Option (Vector3d × Matrix3d)),
      findConnection.descriptorMatched self old_kf = some m1 ∧
      findConnection.geometricallyVerified lib self m1 = some (m2, pose)) := by
  cases hold : old_kf.is_vio_keyframe_ with
  | false =>
    left
    unfold findConnection at h
    simp only [hold, Bool.not_false, if_true, Option.some.injEq, Prod.mk.injEq] at h
    exact ⟨rfl, h.1.symm, h.2.symm⟩
  | true =>
    right
    refine ⟨rfl, ?_⟩
    unfold findConnection at h
    simp only [hold, Bool.not_true, Bool.false_eq_true, if_false, Option.bind_eq_bind,
      Option.bind_eq_some] at h
    obtain ⟨m1, h1, ⟨m2, pose⟩, h2, _⟩ := h
    exact ⟨m1, m2, pose, h1, h2⟩

/-- An attempt that returns true went through both stages with counts above the minimum
and through the gate, and wrote the accepted state. -/
theorem findConnection_true (lib : Library) (self old_kf kf : Keyframe)
    (h : findConnection lib self old_kf = some (true, kf)) :
    old_kf.is_vio_keyframe_ = true ∧
    ∃ (m1 m2 : MatchSet) (T : Vector3d) (R : Matrix3d),
      findConnection.descriptorMatched self old_kf = some m1 ∧
      findConnection.geometricallyVerified lib self m1 = some (m2, some (T, R)) ∧
      self.params_.min_correspondences < (m1.matched_2d_cur.length : Int) ∧
      self.params_.min_correspondences < (m2.matched_2d_cur.length : Int) ∧
      |findConnection.relative_yaw lib self R| < 25 ∧
      lib.norm (findConnection.relative_t self T R) < 15 ∧
      kf = findConnection.accepted lib self old_kf T R := by
  rcases findConnection_stages lib self old_kf true kf h with ⟨_, hb, _⟩ | ⟨hold, m1, m2, pose, h1, h2⟩
  · cases hb
  · refine ⟨hold, ?_⟩
    rw [findConnection_of_stages lib self old_kf m1 m2 pose hold h1 h2] at h
    cases pose with
    | none =>
      unfold findConnection.gate at h
      split_ifs at h
      simp at h
    | some p =>
      obtain ⟨T, R⟩ := p
      rw [findConnection.gate_pose] at h
      split_ifs at h with hc hg
      · simp only [Option.some.injEq, Prod.mk.injEq, true_and] at h
        exact ⟨m1, m2, T, R, h1, h2,
          findConnection.geometricallyVerified_pose lib self m1 m2 T R h2, hc, hg.1, hg.2,
          h.symm⟩
      · simp at h
      · simp at h

/-- An attempt that returns false leaves the keyframe as it was. -/
theorem findConnection_false (lib : Library) (self old_kf kf : Keyframe)
    (h : findConnection lib self old_kf = some (false, kf)) : kf = self := by
  rcases findConnection_stages lib self old_kf false kf h with ⟨_, _, hk⟩ | ⟨hold, m1, m2, pose, h1, h2⟩
  · exact hk
  · rw [findConnection_of_stages lib self old_kf m1 m2 pose hold h1 h2] at h
    cases pose with
    | none =>
      unfold findConnection.gate at h
      split_ifs at h
      simp only [Option.some.injEq, Prod.mk.injEq, true_and] at h
      exact h.symm
    | some p =>
      obtain ⟨T, R⟩ := p
      rw [findConnection.gate_pose] at h
      split_ifs at h with hc hg
      · simp at h
      · simp only [Option.some.injEq, Prod.mk.injEq, true_and] at h
        exact h.symm
      · simp only [Option.some.injEq, Prod.mk.injEq, true_and] at h
        exact h.symm
/-! ## Evaluation of the scenarios -/

/-- Descriptor matching reads the window descriptors and the point vectors of the
current keyframe, and the descriptors and keypoints of the candidate. -/
theorem findConnection.descriptorMatched_congr (self self' old_kf old_kf' : Keyframe)
    (h1 : self.window_brief_descriptors = self'.window_brief_descriptors)
    (h2 : self.point_3d = self'.point_3d) (h3 : self.point_2d_uv = self'.point_2d_uv)
    (h4 : self.point_ids_ = self'.point_ids_)
    (h5 : old_kf.brief_descriptors = old_kf'.brief_descriptors)
    (h6 : old_kf.keypoints = old_kf'.keypoints)
    (h7 : old_kf.keypoints_norm = old_kf'.keypoints_norm) :
    findConnection.descriptorMatched self old_kf
      = findConnection.descriptorMatched self' old_kf' := by
  unfold findConnection.descriptorMatched
  rw [h1, h2, h3, h4, h5, h6, h7]

/-- The result of `findConnection` from the results of its three parts. -/
theorem findConnection_of_gate (lib : Library) (self old_kf : Keyframe) (m1 m2 : MatchSet)
    (pose : Option (Vector3d × Matrix3d)) (r : Option (Bool × Keyframe))
    (hold : old_kf.is_vio_keyframe_ = true)
    (h1 : findConnection.descriptorMatched self old_kf = some m1)
    (h2 : findConnection.geometricallyVerified lib self m1 = some (m2, pose))
    (h3 : findConnection.gate lib self old_kf m2 pose = r) :
    findConnection lib self old_kf = r :=
  (findConnection_of_stages lib self old_kf m1 m2 pose hold h1 h2).trans h3

/-- Descriptor matching in the scenarios: all fifteen window features are matched. -/
theorem scenario_descriptorMatched :
    findConnection.descriptorMatched (scenarioCur rotZ10) scenarioOld
      = some (scenarioMatched rotZ10) := by
  decide!

/-- Scenario B is accepted. -/
theorem scenarioB_accepted :
    findConnection libB (scenarioCur rotZ10) scenarioOld
      = some (true, findConnection.accepted libB (scenarioCur rotZ10) scenarioOld ⟨0, 0, 0⟩
          Matrix3d.identity) :=
  findConnection_of_gate libB (scenarioCur rotZ10) scenarioOld (scenarioMatched rotZ10)
    (scenarioMatched rotZ10) (some (⟨0, 0, 0⟩, Matrix3d.identity)) _ (by decide)
    scenario_descriptorMatched (by decide!) (by decide!)

/-- Descriptor matching between keyframes built by the first constructor with the
points and features of the scenarios. -/
theorem built_descriptorMatched (self old_kf : Keyframe)
    (h1 : self.window_brief_descriptors = (builtPlain 10).window_brief_descriptors)
    (h2 : self.point_3d = (builtPlain 10).point_3d)
    (h3 : self.point_2d_uv = (builtPlain 10).point_2d_uv)
    (h4 : self.point_ids_ = (builtPlain 10).point_ids_)
    (h5 : old_kf.brief_descriptors = builtSelf.brief_descriptors)
    (h6 : old_kf.keypoints = builtSelf.keypoints)
    (h7 : old_kf.keypoints_norm = builtSelf.keypoints_norm) :
    findConnection.descriptorMatched self old_kf = some (builtMatched 10) := by
  rw [findConnection.descriptorMatched_congr self (builtPlain 10) old_kf builtSelf h1 h2 h3 h4
    h5 h6 h7]
  decide!

/-- Scenario B on keyframes built by the first constructor: the candidate with index 3
is accepted. -/
theorem builtCur_accepts_candidate_three :
    findConnection libB builtCur (builtKeyframe 3 10 ⟨0, 0, 0⟩ Matrix3d.identity [])
      = some (true, loopedTo 3) :=
  findConnection_of_gate libB builtCur _ (builtMatched 10) (builtMatched 10)
    (some (⟨0, 0, 0⟩, Matrix3d.identity)) _ (by decide)
    (built_descriptorMatched _ _ (by decide!) (by decide!) (by decide!) (by decide!)
      (by decide!) (by decide!) (by decide!))
    (by decide!) (by decide!)
/-- C5, as amended. Whenever `findConnection` returns true, the old keyframe is a full
keyframe, the number of correspondences left after descriptor matching and the number
left after geometric verification are both at least the configured minimum, the absolute
relative yaw is below 25 and the norm of the relative translation, as `norm()` computes
it in double precision, is below 15. -/
theorem findConnection_accept_requires (lib : Library) (self old_kf kf : Keyframe)
    (h : findConnection lib self old_kf = some (true, kf)) :
    old_kf.is_vio_keyframe_ = true ∧
    ∃ (m1 m2 : MatchSet) (T : Vector3d) (R : Matrix3d),
      findConnection.descriptorMatched self old_kf = some m1 ∧
      findConnection.geometricallyVerified lib self m1 = some (m2, some (T, R)) ∧
      self.params_.min_correspondences ≤ (m1.matched_2d_cur.length : Int) ∧
      self.params_.min_correspondences ≤ (m2.matched_2d_cur.length : Int) ∧
      |findConnection.relative_yaw lib self R| < 25 ∧
      lib.norm (findConnection.relative_t self T R) < 15 := by
  obtain ⟨hold, m1, m2, T, R, h1, h2, hc1, hc2, hy, ht, _⟩ :=
    findConnection_true lib self old_kf kf h
  exact ⟨hold, m1, m2, T, R, h1, h2, le_of_lt hc1, le_of_lt hc2, hy, ht⟩

/-- C5, counterexample. The current keyframe is at the position `roundedBelow15`, a vector
of doubles, and the old pose is the identity at the origin, so that the relative
translation is `roundedBelow15`; fifteen correspondences are left after both stages, the
minimum is ten and the relative yaw is 0. The squared norm of the relative translation is
above 225, so its Euclidean norm is not below 15, while `norm()` returns the double just
below 15: `findConnection` returns true. -/
theorem findConnection_accepts_norm_not_below_bound :
    builtSelf.is_vio_keyframe_ = true ∧
    findConnection.descriptorMatched (builtAt roundedBelow15) builtSelf
      = some (builtMatched 10) ∧
    findConnection.geometricallyVerified libSame (builtAt roundedBelow15) (builtMatched 10)
      = some (builtMatched 10, some (⟨0, 0, 0⟩, Matrix3d.identity)) ∧
    findConnection.relative_t (builtAt roundedBelow15) ⟨0, 0, 0⟩ Matrix3d.identity
      = roundedBelow15 ∧
    libSame.norm roundedBelow15 = 15 - 1 / 562949953421312 ∧
    findConnection libSame (builtAt roundedBelow15) builtSelf
      = some (true, findConnection.accepted libSame (builtAt roundedBelow15) builtSelf
          ⟨0, 0, 0⟩ Matrix3d.identity) ∧
    ¬ Real.sqrt (((findConnection.relative_t (builtAt roundedBelow15) ⟨0, 0, 0⟩
      Matrix3d.identity).squaredNorm : Rat) : Real) < 15 := by
  have h1 : findConnection.descriptorMatched (builtAt roundedBelow15) builtSelf
      = some (builtMatched 10) :=
    built_descriptorMatched _ _ (by decide!) (by decide!) (by decide!) (by decide!)
      (by decide!) (by decide!) (by decide!)
  have h2 : findConnection.geometricallyVerified libSame (builtAt roundedBelow15)
      (builtMatched 10) = some (builtMatched 10, some (⟨0, 0, 0⟩, Matrix3d.identity)) := by
    decide!
  have hsq : (15 : Rat) * 15 ≤ (findConnection.relative_t (builtAt roundedBelow15) ⟨0, 0, 0⟩
      Matrix3d.identity).squaredNorm := by decide!
  refine ⟨by decide!, h1, h2, by decide!, by decide!,
    findConnection_of_gate libSame (builtAt roundedBelow15) builtSelf (builtMatched 10)
      (builtMatched 10) (some (⟨0, 0, 0⟩, Matrix3d.identity)) _ (by decide!) h1 h2
      (by decide!), ?_⟩
  have hle := Vector3d.le_sqrt_squaredNorm _ 15 (by norm_num) hsq
  have h15 : ((15 : Rat) : Real) = 15 := by norm_num
  rw [h15] at hle
  exact not_lt.2 hle

/-- Scenario B is accepted, so `findConnection_accept_requires` applies to it: the norm
computed for its relative translation is 2. -/
theorem findConnection_accept_requires_witness :
    findConnection libB (scenarioCur rotZ10) scenarioOld
      = some (true, findConnection.accepted libB (scenarioCur rotZ10) scenarioOld ⟨0, 0, 0⟩
          Matrix3d.identity) ∧
    scenarioOld.is_vio_keyframe_ = true ∧
    ∃ (m1 m2 : MatchSet) (T : Vector3d) (R : Matrix3d),
      findConnection.descriptorMatched (scenarioCur rotZ10) scenarioOld = some m1 ∧
      findConnection.geometricallyVerified libB (scenarioCur rotZ10) m1 = some (m2, some (T, R)) ∧
      (scenarioCur rotZ10).params_.min_correspondences ≤ (m1.matched_2d_cur.length : Int) ∧
      (scenarioCur rotZ10).params_.min_correspondences ≤ (m2.matched_2d_cur.length : Int) ∧
      |findConnection.relative_yaw libB (scenarioCur rotZ10) R| < 25 ∧
      libB.norm (findConnection.relative_t (scenarioCur rotZ10) T R) < 15 :=
  ⟨scenarioB_accepted, findConnection_accept_requires libB (scenarioCur rotZ10) scenarioOld
    (findConnection.accepted libB (scenarioCur rotZ10) scenarioOld ⟨0, 0, 0⟩ Matrix3d.identity)
    scenarioB_accepted⟩

/-- C6, as amended. For an attempt against a full old keyframe whose two stages
complete: when the count left after geometric verification is at most the configured
minimum (a count exactly equal to it included) `findConnection` returns false and leaves
the keyframe as it was; when the counts after descriptor matching and after geometric
verification are both strictly above the minimum, verification has produced a pose, and
with absolute relative yaw below 25 and the norm of the relative translation, as `norm()`
computes it in double precision, below 15 `findConnection` returns true. -/
theorem findConnection_count_gate (lib : Library) (self old_kf : Keyframe) (m1 m2 : MatchSet)
    (pose : Option (Vector3d × Matrix3d)) (hold : old_kf.is_vio_keyframe_ = true)
    (h1 : findConnection.descriptorMatched self old_kf = some m1)
    (h2 : findConnection.geometricallyVerified lib self m1 = some (m2, pose)) :
    ((m2.matched_2d_cur.length : Int) ≤ self.params_.min_correspondences →
      findConnection lib self old_kf = some (false, self)) ∧
    (self.params_.min_correspondences < (m1.matched_2d_cur.length : Int) →
      self.params_.min_correspondences < (m2.matched_2d_cur.length : Int) →
      ∃ (T : Vector3d) (R : Matrix3d), pose = some (T, R) ∧
        (|findConnection.relative_yaw lib self R| < 25 →
          lib.norm (findConnection.relative_t self T R) < 15 →
          findConnection lib self old_kf
            = some (true, findConnection.accepted lib self old_kf T R))) := by
  rw [findConnection_of_stages lib self old_kf m1 m2 pose hold h1 h2]
  constructor
  · intro hle
    unfold findConnection.gate
    rw [if_neg (not_lt.2 hle)]
  · intro hc1 hc2
    obtain ⟨T, R, hp⟩ := findConnection.geometricallyVerified_some lib self m1 m2 pose hc1 h2
    refine ⟨T, R, hp, ?_⟩
    intro hy ht
    rw [hp, findConnection.gate_pose, if_pos hc2, if_pos ⟨hy, ht⟩]

/-- The Euclidean norm of the relative translation of the scenarios, which is 2, is below
15. -/
theorem scenario_norm :
    Real.sqrt (((findConnection.relative_t (scenarioCur rotZ10) ⟨0, 0, 0⟩
      Matrix3d.identity).squaredNorm : Rat) : Real) < 15 := by
  have h := Vector3d.sqrt_squaredNorm_lt (findConnection.relative_t (scenarioCur rotZ10)
    ⟨0, 0, 0⟩ Matrix3d.identity) 15 (by norm_num) (by decide!)
  simpa using h

/-- C6, counterexample. First, fifteen correspondences are left after descriptor matching
and ten after geometric verification, the configured minimum is ten, the relative yaw is
10 and the relative translation has norm 2, computed and Euclidean: every condition of
the claim holds, and `findConnection` returns false. Second, with fifteen correspondences
left after both stages, relative yaw 0 and the relative translation `roundedTo15`, whose
Euclidean norm is below 15, `norm()` returns 15 and `findConnection` returns false. -/
theorem findConnection_rejects_count_equal_to_minimum :
    (scenarioOld.is_vio_keyframe_ = true ∧
      (scenarioCur rotZ10).params_.min_correspondences = 10 ∧
      findConnection.descriptorMatched (scenarioCur rotZ10) scenarioOld
        = some (scenarioMatched rotZ10) ∧
      ((scenarioMatched rotZ10).matched_2d_cur.length : Int) = 15 ∧
      findConnection.geometricallyVerified libTen (scenarioCur rotZ10) (scenarioMatched rotZ10)
        = some ((scenarioMatched rotZ10).take 10, some (⟨0, 0, 0⟩, Matrix3d.identity)) ∧
      ((((scenarioMatched rotZ10).take 10).matched_2d_cur.length : Int) = 10) ∧
      |findConnection.relative_yaw libTen (scenarioCur rotZ10) Matrix3d.identity| < 25 ∧
      libTen.norm (findConnection.relative_t (scenarioCur rotZ10) ⟨0, 0, 0⟩
        Matrix3d.identity) < 15 ∧
      Real.sqrt (((findConnection.relative_t (scenarioCur rotZ10) ⟨0, 0, 0⟩
        Matrix3d.identity).squaredNorm : Rat) : Real) < 15 ∧
      findConnection libTen (scenarioCur rotZ10) scenarioOld
        = some (false, scenarioCur rotZ10)) ∧
    (builtSelf.is_vio_keyframe_ = true ∧
      (builtAt roundedTo15).params_.min_correspondences = 10 ∧
      findConnection.descriptorMatched (builtAt roundedTo15) builtSelf
        = some (builtMatched 10) ∧
      findConnection.geometricallyVerified libSame (builtAt roundedTo15) (builtMatched 10)
        = some (builtMatched 10, some (⟨0, 0, 0⟩, Matrix3d.identity)) ∧
      ((builtMatched 10).matched_2d_cur.length : Int) = 15 ∧
      |findConnection.relative_yaw libSame (builtAt roundedTo15) Matrix3d.identity| < 25 ∧
      findConnection.relative_t (builtAt roundedTo15) ⟨0, 0, 0⟩ Matrix3d.identity
        = roundedTo15 ∧
      Real.sqrt (((findConnection.relative_t (builtAt roundedTo15) ⟨0, 0, 0⟩
        Matrix3d.identity).squaredNorm : Rat) : Real) < 15 ∧
      libSame.norm roundedTo15 = 15 ∧
      findConnection libSame (builtAt roundedTo15) builtSelf
        = some (false, builtAt roundedTo15)) := by
  have h1 : findConnection.descriptorMatched (builtAt roundedTo15) builtSelf
      = some (builtMatched 10) :=
    built_descriptorMatched _ _ (by decide!) (by decide!) (by decide!) (by decide!)
      (by decide!) (by decide!) (by decide!)
  have h2 : findConnection.geometricallyVerified libSame (builtAt roundedTo15)
      (builtMatched 10) = some (builtMatched 10, some (⟨0, 0, 0⟩, Matrix3d.identity)) := by
    decide!
  have hsqrt := Vector3d.sqrt_squaredNorm_lt (findConnection.relative_t (builtAt roundedTo15)
    ⟨0, 0, 0⟩ Matrix3d.identity) 15 (by norm_num) (by decide!)
  have h15 : ((15 : Rat) : Real) = 15 := by norm_num
  rw [h15] at hsqrt
  exact ⟨⟨by decide, by decide, scenario_descriptorMatched, by decide, by decide!, by decide,
      by decide!, by decide!, scenario_norm,
      findConnection_of_gate libTen (scenarioCur rotZ10) scenarioOld (scenarioMatched rotZ10)
        ((scenarioMatched rotZ10).take 10) (some (⟨0, 0, 0⟩, Matrix3d.identity)) _ (by decide)
        scenario_descriptorMatched (by decide!) (by decide!)⟩,
    ⟨by decide!, by decide!, h1, h2, by decide!, by decide!, by decide!, hsqrt, by decide!,
      findConnection_of_gate libSame (builtAt roundedTo15) builtSelf (builtMatched 10)
        (builtMatched 10) (some (⟨0, 0, 0⟩, Matrix3d.identity)) _ (by decide!) h1 h2
        (by decide!)⟩⟩

/-- Scenario B through `findConnection_count_gate`: fifteen correspondences after both
stages, minimum ten, yaw 10, computed translation norm 2, accepted. -/
theorem findConnection_count_gate_witness :
    scenarioOld.is_vio_keyframe_ = true ∧
    findConnection.descriptorMatched (scenarioCur rotZ10) scenarioOld
      = some (scenarioMatched rotZ10) ∧
    findConnection.geometricallyVerified libB (scenarioCur rotZ10) (scenarioMatched rotZ10)
      = some (scenarioMatched rotZ10, some (⟨0, 0, 0⟩, Matrix3d.identity)) ∧
    findConnection libB (scenarioCur rotZ10) scenarioOld
      = some (true, findConnection.accepted libB (scenarioCur rotZ10) scenarioOld ⟨0, 0, 0⟩
          Matrix3d.identity) := by
  refine ⟨by decide, scenario_descriptorMatched, by decide!, ?_⟩
  obtain ⟨T, R, hp, hacc⟩ :=
    (findConnection_count_gate libB (scenarioCur rotZ10) scenarioOld (scenarioMatched rotZ10)
      (scenarioMatched rotZ10) (some (⟨0, 0, 0⟩, Matrix3d.identity)) (by decide)
      scenario_descriptorMatched (by decide!)).2 (by decide) (by decide)
  simp only [Option.some.injEq, Prod.mk.injEq] at hp
  obtain ⟨hT, hR⟩ := hp
  subst hT hR
  exact hacc (by decide!) (by decide!)

/-- C7. Whenever `findConnection` returns true, the current keyframe afterwards has
`has_loop = true` and `loop_index = old_kf.index`, and `getLoopRelativeT`,
`getLoopRelativeQ` and `getLoopRelativeYaw` return exactly the relative translation, the
relative rotation quaternion `(w, x, y, z)` and the relative yaw computed in that
attempt from the pose returned by the geometric verification. -/
theorem findConnection_accept_stores_loop (lib : Library) (self old_kf kf : Keyframe)
    (h : findConnection lib self old_kf = some (true, kf)) :
    kf.has_loop = true ∧ kf.loop_index = old_kf.index ∧
    ∃ (m1 m2 : MatchSet) (T : Vector3d) (R : Matrix3d),
      findConnection.descriptorMatched self old_kf = some m1 ∧
      findConnection.geometricallyVerified lib self m1 = some (m2, some (T, R)) ∧
      kf.getLoopRelativeT = findConnection.relative_t self T R ∧
      kf.getLoopRelativeQ = findConnection.relative_q lib self R ∧
      kf.getLoopRelativeYaw = findConnection.relative_yaw lib self R := by
  obtain ⟨_, m1, m2, T, R, h1, h2, _, _, _, _, hkf⟩ :=
    findConnection_true lib self old_kf kf h
  subst hkf
  exact ⟨rfl, rfl, m1, m2, T, R, h1, h2, rfl, rfl, rfl⟩

/-- Scenario B through `findConnection_accept_stores_loop`: fifteen surviving
correspondences, minimum ten, relative yaw 10 and translation norm 2 is accepted, and
the keyframe then holds a loop to keyframe 3 with translation `(2, 0, 0)` and yaw 10. -/
theorem findConnection_accept_stores_loop_witness :
    ∃ kf : Keyframe,
      findConnection libB (scenarioCur rotZ10) scenarioOld = some (true, kf) ∧
      kf.has_loop = true ∧ kf.loop_index = 3 ∧
      kf.getLoopRelativeT = ⟨2, 0, 0⟩ ∧ kf.getLoopRelativeYaw = 10 ∧
      kf.getLoopRelativeQ = findConnection.relative_q libB (scenarioCur rotZ10) Matrix3d.identity := by
  have h := scenarioB_accepted
  obtain ⟨hl, hi, _⟩ := findConnection_accept_stores_loop libB (scenarioCur rotZ10) scenarioOld _ h
  exact ⟨_, h, hl, hi, by decide!, by decide!, rfl⟩

/-- C8. Whenever `findConnection` returns false, for whichever reason, the current
keyframe is exactly what it was before the call: `has_loop`, `loop_index`, `loop_info`
and the pose fields are unchanged. -/
theorem findConnection_reject_keeps_state (lib : Library) (self old_kf kf : Keyframe)
    (h : findConnection lib self old_kf = some (false, kf)) :
    kf.has_loop = self.has_loop ∧ kf.loop_index = self.loop_index ∧
    kf.loop_info = self.loop_info ∧
    kf.T_w_i = self.T_w_i ∧ kf.R_w_i = self.R_w_i ∧
    kf.svin_T_w_i = self.svin_T_w_i ∧ kf.svin_R_w_i = self.svin_R_w_i ∧
    kf.origin_svin_T = self.origin_svin_T ∧ kf.origin_svin_R = self.origin_svin_R ∧
    kf = self := by
  have hk := findConnection_false lib self old_kf kf h
  subst hk
  exact ⟨rfl, rfl, rfl, rfl, rfl, rfl, rfl, rfl, rfl, rfl⟩

/-- Scenario C through `findConnection_reject_keeps_state`: the setup of scenario B with
relative yaw 40 is rejected, and the earlier loop of the keyframe is still in place. -/
theorem findConnection_reject_keeps_state_witness :
    findConnection libC (scenarioCur rotZ10) scenarioOld = some (false, scenarioCur rotZ10) ∧
    findConnection.relative_yaw libC (scenarioCur rotZ10) Matrix3d.identity = 40 ∧
    (scenarioCur rotZ10).has_loop = true ∧ (scenarioCur rotZ10).loop_index = 1 ∧
    (scenarioCur rotZ10).loop_info = ⟨1, 1, 1, 1, 0, 0, 0, 5⟩ :=
  have h : findConnection libC (scenarioCur rotZ10) scenarioOld
      = some (false, scenarioCur rotZ10) :=
    findConnection_of_gate libC (scenarioCur rotZ10) scenarioOld (scenarioMatched rotZ10)
      (scenarioMatched rotZ10) (some (⟨0, 0, 0⟩, Matrix3d.identity)) _ (by decide)
      scenario_descriptorMatched (by decide!) (by decide!)
  have hs := findConnection_reject_keeps_state libC (scenarioCur rotZ10) scenarioOld
    (scenarioCur rotZ10) h
  ⟨h, by decide!, hs.1.symm ▸ rfl, hs.2.1.symm ▸ rfl, hs.2.2.1.symm ▸ rfl⟩

/-- C9, as amended. With the norm of the translation (entries 0 to 2) as `norm()` computes
it in double precision: if the absolute yaw of the candidate (entry 7) is 30 or more, or
that norm is 20 or more, `updateLoop` leaves the keyframe, and so `has_loop`, `loop_index`
and `loop_info`, unchanged; if the absolute yaw is below 30 and that norm is below 20, the
stored `loop_info` afterwards is the candidate, and `has_loop` and `loop_index` are as
before. -/
theorem updateLoop_sanity_gate (lib : Library) (self : Keyframe) (c : Vector8d) :
    ((30 ≤ |c.c7| ∨ 20 ≤ lib.norm ⟨c.c0, c.c1, c.c2⟩) →
      (self.updateLoop lib c).has_loop = self.has_loop ∧
      (self.updateLoop lib c).loop_index = self.loop_index ∧
      (self.updateLoop lib c).loop_info = self.loop_info ∧ self.updateLoop lib c = self) ∧
    ((|c.c7| < 30 ∧ lib.norm ⟨c.c0, c.c1, c.c2⟩ < 20) →
      (self.updateLoop lib c).loop_info = c ∧
      (self.updateLoop lib c).has_loop = self.has_loop ∧
      (self.updateLoop lib c).loop_index = self.loop_index) := by
  constructor
  · intro hout
    have hneg : ¬ (|c.c7| < 30 ∧ lib.norm ⟨c.c0, c.c1, c.c2⟩ < 20) := by
      rintro ⟨hy, ht⟩
      rcases hout with h | h
      · exact absurd hy (not_lt.2 h)
      · exact absurd ht (not_lt.2 h)
    have : self.updateLoop lib c = self := by
      unfold Keyframe.updateLoop
      rw [if_neg hneg]
    rw [this]
    exact ⟨rfl, rfl, rfl, rfl⟩
  · intro hin
    have : self.updateLoop lib c = { self with loop_info := c } := by
      unfold Keyframe.updateLoop
      rw [if_pos hin]
    rw [this]
    exact ⟨rfl, rfl, rfl⟩

/-- C9, counterexample. The candidate has yaw 0 and the translation `roundedTo20`, a
vector of doubles whose Euclidean norm is below 20; `norm()` returns 20, and `updateLoop`
leaves the stored `loop_info` as it was instead of storing the candidate. -/
theorem updateLoop_ignores_norm_below_bound :
    |(0 : Rat)| < 30 ∧
    Real.sqrt (((roundedTo20.squaredNorm : Rat)) : Real) < 20 ∧
    libSame.norm roundedTo20 = 20 ∧
    ((scenarioCur rotZ10).updateLoop libSame
      ⟨roundedTo20.x, roundedTo20.y, roundedTo20.z, 1, 0, 0, 0, 0⟩).loop_info
        = (scenarioCur rotZ10).loop_info ∧
    ((scenarioCur rotZ10).updateLoop libSame
      ⟨roundedTo20.x, roundedTo20.y, roundedTo20.z, 1, 0, 0, 0, 0⟩).loop_info
        ≠ ⟨roundedTo20.x, roundedTo20.y, roundedTo20.z, 1, 0, 0, 0, 0⟩ := by
  have hsqrt := Vector3d.sqrt_squaredNorm_lt roundedTo20 20 (by norm_num) (by decide!)
  have h20 : ((20 : Rat) : Real) = 20 := by norm_num
  rw [h20] at hsqrt
  exact ⟨by decide!, hsqrt, by decide!, by decide!, by decide!⟩

/-- The sanity gate of `updateLoop` on the keyframe of the scenarios, through
`updateLoop_sanity_gate`: a candidate with yaw 35 is ignored, a candidate with yaw 12 and
translation `(3, 4, 0)`, of computed norm 5, is stored. -/
theorem updateLoop_sanity_gate_witness :
    ((scenarioCur rotZ10).updateLoop libSame ⟨3, 4, 0, 1, 0, 0, 0, 35⟩).loop_info
      = ⟨1, 1, 1, 1, 0, 0, 0, 5⟩ ∧
    ((scenarioCur rotZ10).updateLoop libSame ⟨3, 4, 0, 1, 0, 0, 0, 12⟩).loop_info
      = ⟨3, 4, 0, 1, 0, 0, 0, 12⟩ := by
  have h := updateLoop_sanity_gate libSame (scenarioCur rotZ10) ⟨3, 4, 0, 1, 0, 0, 0, 35⟩
  have h' := updateLoop_sanity_gate libSame (scenarioCur rotZ10) ⟨3, 4, 0, 1, 0, 0, 0, 12⟩
  refine ⟨?_, (h'.2 ⟨by decide!, by decide!⟩).1⟩
  rw [(h.1 (Or.inl (by decide!))).2.2.1]
  rfl
/-! ## The covisibility row -/

/-- An entry of the map after `insert` was there before or is the inserted pair. -/
theorem KFMap.mem_insert (row : KFMap) (kv e : Nat × Int) (h : e ∈ KFMap.insert row kv) :
    e ∈ row ∨ e = kv := by
  induction row with
  | nil => right; simpa [KFMap.insert] using h
  | cons a rest ih =>
    unfold KFMap.insert at h
    split_ifs at h with h1 h2
    · rcases List.mem_cons.1 h with h | h
      · exact Or.inr h
      · exact Or.inl h
    · exact Or.inl h
    · rcases List.mem_cons.1 h with h | h
      · exact Or.inl (h ▸ List.mem_cons_self _ _)
      · rcases ih h with h | h
        · exact Or.inl (List.mem_cons_of_mem _ h)
        · exact Or.inr h

/-- The member `insert` removes nothing. -/
theorem KFMap.mem_insert_of_mem (row : KFMap) (kv e : Nat × Int) (h : e ∈ row) :
    e ∈ KFMap.insert row kv := by
  induction row with
  | nil => cases h
  | cons a rest ih =>
    unfold KFMap.insert
    split_ifs with h1 h2
    · exact List.mem_cons_of_mem _ h
    · exact h
    · rcases List.mem_cons.1 h with h | h
      · exact h ▸ List.mem_cons_self _ _
      · exact List.mem_cons_of_mem _ (ih h)

/-- The loop of `updateConnections` only adds entries of the map with a count above the
threshold. -/
theorem Keyframe.updateConnections.loop_mem (th : Int) (m : KFMap) :
    ∀ (row : KFMap) (e : Nat × Int), e ∈ Keyframe.updateConnections.loop th m row →
      e ∈ row ∨ (e ∈ m ∧ th < e.2) := by
  induction m with
  | nil => intro row e h; exact Or.inl h
  | cons a rest ih =>
    intro row e h
    unfold Keyframe.updateConnections.loop at h
    split_ifs at h with hw
    · rcases ih _ e h with h | ⟨h, ht⟩
      · rcases KFMap.mem_insert row (a.1, a.2) e h with h | h
        · exact Or.inl h
        · have hea : e = a := h
          exact Or.inr ⟨hea ▸ List.mem_cons_self _ _, hea ▸ hw⟩
      · exact Or.inr ⟨List.mem_cons_of_mem _ h, ht⟩
    · rcases ih _ e h with h | ⟨h, ht⟩
      · exact Or.inl h
      · exact Or.inr ⟨List.mem_cons_of_mem _ h, ht⟩

/-- The loop of `updateConnections` removes nothing from the row. -/
theorem Keyframe.updateConnections.loop_keeps (th : Int) (m : KFMap) :
    ∀ (row : KFMap) (e : Nat × Int), e ∈ row → e ∈ Keyframe.updateConnections.loop th m row := by
  induction m with
  | nil => intro row e h; exact h
  | cons a rest ih =>
    intro row e h
    unfold Keyframe.updateConnections.loop
    split_ifs with hw
    · exact ih _ e (KFMap.mem_insert_of_mem row (a.1, a.2) e h)
    · exact ih _ e h

/-- The row after `updateConnections`. -/
theorem Keyframe.updateConnections_row (self : Keyframe) :
    self.updateConnections.mConnectedKeyFrameWeights
      = Keyframe.updateConnections.loop 20 self.KFcounter_ self.mConnectedKeyFrameWeights := by
  unfold Keyframe.updateConnections
  split_ifs with h
  · have hnil : self.KFcounter_ = [] := by simpa using h.1
    rw [hnil]
    rfl
  · rfl

/-- C10, as amended. `updateConnections` removes no edge and adds only neighbours whose
count in the current map exceeds 20: every entry of the adjacency row after the update
was in the row before it or is an entry of the map with count above 20, and every prior
entry is still there. So on a row that was empty before the update, as in the two
constructors, no neighbour with a count at or below 20 is in the row afterwards, and the
row is empty when all counts are at most 20. -/
theorem updateConnections_adds_only_above_threshold (self : Keyframe) :
    (∀ e ∈ self.updateConnections.mConnectedKeyFrameWeights,
      e ∈ self.mConnectedKeyFrameWeights ∨ (e ∈ self.KFcounter_ ∧ 20 < e.2)) ∧
    (∀ e ∈ self.mConnectedKeyFrameWeights,
      e ∈ self.updateConnections.mConnectedKeyFrameWeights) ∧
    (self.mConnectedKeyFrameWeights = [] →
      (∀ e ∈ self.updateConnections.mConnectedKeyFrameWeights,
        e ∈ self.KFcounter_ ∧ 20 < e.2) ∧
      ((∀ e ∈ self.KFcounter_, e.2 ≤ 20) →
        self.updateConnections.mConnectedKeyFrameWeights = [])) := by
  rw [Keyframe.updateConnections_row]
  have hmem := Keyframe.updateConnections.loop_mem 20 self.KFcounter_
    self.mConnectedKeyFrameWeights
  refine ⟨hmem, Keyframe.updateConnections.loop_keeps 20 self.KFcounter_ _, ?_⟩
  intro hempty
  have hnew : ∀ e ∈ Keyframe.updateConnections.loop 20 self.KFcounter_
      self.mConnectedKeyFrameWeights, e ∈ self.KFcounter_ ∧ 20 < e.2 := by
    intro e he
    rcases hmem e he with h | h
    · rw [hempty] at h; cases h
    · exact h
  refine ⟨hnew, ?_⟩
  intro hall
  apply List.eq_nil_iff_forall_not_mem.2
  intro e he
  have := hnew e he
  have := hall e this.1
  omega

/-- C10, counterexample. The row holds an edge to neighbour 7 with weight 30 and the
current map counts 5 shared landmarks for neighbour 7, its only entry: after
`updateConnections` the edge is still in the row, which is not empty although every
count of the map is at most 20. -/
theorem updateConnections_keeps_stale_edge :
    staleRowKeyframe.KFcounter_ = [(7, 5)] ∧
    (∀ e ∈ staleRowKeyframe.KFcounter_, e.2 ≤ 20) ∧
    staleRowKeyframe.updateConnections.mConnectedKeyFrameWeights = [(7, 30)] ∧
    staleRowKeyframe.updateConnections.mConnectedKeyFrameWeights ≠ [] := by
  decide

/-- The update of a fresh row through `updateConnections_adds_only_above_threshold`: of
the neighbours with counts 20, 21 and 35 the last two are in the row. -/
theorem updateConnections_adds_only_above_threshold_witness :
    freshRowKeyframe.updateConnections.mConnectedKeyFrameWeights = [(7, 21), (9, 35)] ∧
    ∀ e ∈ freshRowKeyframe.updateConnections.mConnectedKeyFrameWeights,
      e ∈ freshRowKeyframe.KFcounter_ ∧ 20 < e.2 :=
  ⟨by decide,
    ((updateConnections_adds_only_above_threshold freshRowKeyframe).2.2 (by decide)).1⟩
/-! ## Lookups in the covisibility row -/

/-- The lookup of the head key and of another key in a map with a head. -/
theorem KFMap.lookup_cons (e : Nat × Int) (rest : KFMap) (k : Nat) :
    KFMap.lookup (e :: rest) k = if k = e.1 then some e.2 else KFMap.lookup rest k := by
  obtain ⟨k', w'⟩ := e
  by_cases hk : k = k'
  · subst hk; simp [KFMap.lookup, List.lookup]
  · have hb : (k == k') = false := by simpa using hk
    simp [KFMap.lookup, List.lookup, hk, hb]

/-- A looked-up weight belongs to an entry of the map. -/
theorem KFMap.mem_of_lookup (m : KFMap) (k : Nat) (w : Int) (h : KFMap.lookup m k = some w) :
    (k, w) ∈ m := by
  induction m with
  | nil => simp [KFMap.lookup] at h
  | cons e rest ih =>
    obtain ⟨k', w'⟩ := e
    rw [KFMap.lookup_cons] at h
    split_ifs at h with hk
    · simp only [Option.some.injEq] at h
      subst hk h
      exact List.mem_cons_self _ _
    · exact List.mem_cons_of_mem _ (ih h)

/-- In a well-formed map every entry is found by its key. -/
theorem KFMap.lookup_of_mem (m : KFMap) (hm : KFMap.WF m) (k : Nat) (w : Int)
    (h : (k, w) ∈ m) : KFMap.lookup m k = some w := by
  induction m with
  | nil => cases h
  | cons e rest ih =>
    obtain ⟨k', w'⟩ := e
    have hm' := List.pairwise_cons.1 hm
    rcases List.mem_cons.1 h with h | h
    · cases h
      rw [KFMap.lookup_cons, if_pos rfl]
    · have hlt : k' < k := hm'.1 (k, w) h
      have hne : k ≠ k' := by omega
      rw [KFMap.lookup_cons, if_neg hne]
      exact ih hm'.2 h

/-- The lookup of a key below every key of the map fails. -/
theorem KFMap.lookup_none_of_lt (m : KFMap) (k : Nat) (h : ∀ e ∈ m, k < e.1) :
    KFMap.lookup m k = none := by
  cases hl : KFMap.lookup m k with
  | none => rfl
  | some w =>
    have := h (k, w) (KFMap.mem_of_lookup m k w hl)
    simp at this

/-- The member `insert` does not change the lookup of another key. -/
theorem KFMap.lookup_insert_ne (row : KFMap) (kv : Nat × Int) (k : Nat) (hk : k ≠ kv.1) :
    KFMap.lookup (KFMap.insert row kv) k = KFMap.lookup row k := by
  induction row with
  | nil => simp [KFMap.insert, KFMap.lookup_cons, hk, KFMap.lookup]
  | cons e rest ih =>
    unfold KFMap.insert
    split_ifs with h1 h2
    · rw [KFMap.lookup_cons, if_neg hk]
    · rfl
    · rw [KFMap.lookup_cons, KFMap.lookup_cons, ih]

/-- The member `insert` stores the pair when the key is absent. -/
theorem KFMap.lookup_insert_absent (row : KFMap) (kv : Nat × Int)
    (h : KFMap.lookup row kv.1 = none) :
    KFMap.lookup (KFMap.insert row kv) kv.1 = some kv.2 := by
  induction row with
  | nil => simp [KFMap.insert, KFMap.lookup_cons]
  | cons e rest ih =>
    rw [KFMap.lookup_cons] at h
    split_ifs at h with he
    unfold KFMap.insert
    split_ifs with h1
    · rw [KFMap.lookup_cons, if_pos rfl]
    · rw [KFMap.lookup_cons, if_neg he]
      exact ih h

/-- The member `insert` keeps the weight of a key that is present. -/
theorem KFMap.lookup_insert_present (row : KFMap) (hrow : KFMap.WF row) (kv : Nat × Int)
    (w0 : Int) (h : KFMap.lookup row kv.1 = some w0) :
    KFMap.lookup (KFMap.insert row kv) kv.1 = some w0 := by
  induction row with
  | nil => simp [KFMap.lookup] at h
  | cons e rest ih =>
    have hrow' := List.pairwise_cons.1 hrow
    unfold KFMap.insert
    split_ifs with h1 h2
    · exfalso
      have hnone : KFMap.lookup (e :: rest) kv.1 = none := by
        apply KFMap.lookup_none_of_lt
        intro a ha
        rcases List.mem_cons.1 ha with ha | ha
        · rw [ha]; exact h1
        · exact lt_trans h1 (hrow'.1 a ha)
      rw [hnone] at h
      cases h
    · exact h
    · rw [KFMap.lookup_cons, if_neg h2] at h ⊢
      exact ih hrow'.2 h

/-- The member `insert` keeps the keys strictly increasing. -/
theorem KFMap.insert_WF (row : KFMap) (hrow : KFMap.WF row) (kv : Nat × Int) :
    KFMap.WF (KFMap.insert row kv) := by
  induction row with
  | nil => simp [KFMap.insert, KFMap.WF]
  | cons e rest ih =>
    have hrow' := List.pairwise_cons.1 hrow
    unfold KFMap.insert
    split_ifs with h1 h2
    · refine List.pairwise_cons.2 ⟨?_, hrow⟩
      intro a ha
      rcases List.mem_cons.1 ha with ha | ha
      · rw [ha]; exact h1
      · exact lt_trans h1 (hrow'.1 a ha)
    · exact hrow
    · refine List.pairwise_cons.2 ⟨?_, ih hrow'.2⟩
      intro a ha
      rcases KFMap.mem_insert rest kv a ha with ha | ha
      · exact hrow'.1 a ha
      · rw [ha]; omega

/-- The loop of `updateConnections` keeps the row well formed. -/
theorem Keyframe.updateConnections.loop_WF (th : Int) (m : KFMap) :
    ∀ row : KFMap, KFMap.WF row → KFMap.WF (Keyframe.updateConnections.loop th m row) := by
  induction m with
  | nil => intro row h; exact h
  | cons a rest ih =>
    intro row h
    unfold Keyframe.updateConnections.loop
    split_ifs with hw
    · exact ih _ (KFMap.insert_WF row h _)
    · exact ih _ h

/-- The loop of `updateConnections` does not change the lookup of a key that is not in
the map. -/
theorem Keyframe.updateConnections.loop_lookup_other (th : Int) (m : KFMap) (k : Nat)
    (hk : ∀ e ∈ m, e.1 ≠ k) :
    ∀ row : KFMap,
      KFMap.lookup (Keyframe.updateConnections.loop th m row) k = KFMap.lookup row k := by
  induction m with
  | nil => intro row; rfl
  | cons a rest ih =>
    intro row
    have hrest : ∀ e ∈ rest, e.1 ≠ k := fun e he => hk e (List.mem_cons_of_mem _ he)
    have ha : k ≠ a.1 := fun h => hk a (List.mem_cons_self _ _) h.symm
    unfold Keyframe.updateConnections.loop
    split_ifs with hw
    · rw [ih hrest, KFMap.lookup_insert_ne row (a.1, a.2) k ha]
    · exact ih hrest row

/-- After the loop of `updateConnections` a neighbour counted above the threshold has
the weight it had in the row, or its count when it was not in the row. -/
theorem Keyframe.updateConnections.loop_lookup (th : Int) (m : KFMap) (hm : KFMap.WF m)
    (k : Nat) (w : Int) (hmem : (k, w) ∈ m) (hw : th < w) :
    ∀ row : KFMap, KFMap.WF row →
      KFMap.lookup (Keyframe.updateConnections.loop th m row) k
        = some ((KFMap.lookup row k).getD w) := by
  induction m with
  | nil => cases hmem
  | cons a rest ih =>
    intro row hrow
    have hm' := List.pairwise_cons.1 hm
    rcases List.mem_cons.1 hmem with h | h
    · subst h
      have hrest : ∀ e ∈ rest, e.1 ≠ k := fun e he => by
        have := hm'.1 e he
        simp only at this
        omega
      unfold Keyframe.updateConnections.loop
      rw [if_pos hw, Keyframe.updateConnections.loop_lookup_other th rest k hrest]
      cases hl : KFMap.lookup row k with
      | none => exact KFMap.lookup_insert_absent row (k, w) hl
      | some w0 => exact KFMap.lookup_insert_present row hrow (k, w) w0 hl
    · have hne : k ≠ a.1 := by
        have := hm'.1 (k, w) h
        simp only at this
        omega
      unfold Keyframe.updateConnections.loop
      split_ifs with hwa
      · rw [ih hm'.2 h _ (KFMap.insert_WF row hrow _),
          KFMap.lookup_insert_ne row (a.1, a.2) k hne]
      · exact ih hm'.2 h row hrow

/-- C11, as amended. For a row and a map with strictly increasing keys, after
`updateConnections` the row still has strictly increasing keys and every neighbour whose
count in the map exceeds 20 is present in it: with weight equal to its current count when
the neighbour was absent before (insert), and with the weight of its prior edge when it
already had one (the insertion does not overwrite). -/
theorem updateConnections_inserts_without_overwrite (self : Keyframe)
    (hrow : KFMap.WF self.mConnectedKeyFrameWeights) (hmap : KFMap.WF self.KFcounter_) :
    KFMap.WF self.updateConnections.mConnectedKeyFrameWeights ∧
    ∀ (k : Nat) (w : Int), (k, w) ∈ self.KFcounter_ → 20 < w →
      (KFMap.lookup self.mConnectedKeyFrameWeights k = none →
        KFMap.lookup self.updateConnections.mConnectedKeyFrameWeights k = some w) ∧
      (∀ w0 : Int, KFMap.lookup self.mConnectedKeyFrameWeights k = some w0 →
        KFMap.lookup self.updateConnections.mConnectedKeyFrameWeights k = some w0) := by
  rw [Keyframe.updateConnections_row]
  refine ⟨Keyframe.updateConnections.loop_WF 20 _ _ hrow, ?_⟩
  intro k w hmem hw
  have h := Keyframe.updateConnections.loop_lookup 20 self.KFcounter_ hmap k w hmem hw
    self.mConnectedKeyFrameWeights hrow
  constructor
  · intro hnone
    rw [h, hnone]; rfl
  · intro w0 hsome
    rw [h, hsome]; rfl

/-- C11, counterexample. The row holds an edge to neighbour 7 with weight 30 and the map
counts 25 shared landmarks for neighbour 7: after `updateConnections` the weight of the
edge is still 30, not the current count 25. -/
theorem updateConnections_does_not_overwrite :
    KFMap.lookup heavierRowKeyframe.KFcounter_ 7 = some 25 ∧
    KFMap.lookup heavierRowKeyframe.mConnectedKeyFrameWeights 7 = some 30 ∧
    KFMap.lookup heavierRowKeyframe.updateConnections.mConnectedKeyFrameWeights 7 = some 30 ∧
    KFMap.lookup heavierRowKeyframe.updateConnections.mConnectedKeyFrameWeights 7 ≠ some 25 := by
  decide

/-- The update of a row holding neighbour 7 through
`updateConnections_inserts_without_overwrite`: neighbour 9, absent before, gets its count
40, and neighbour 7 keeps its weight. -/
theorem updateConnections_inserts_without_overwrite_witness :
    KFMap.WF heavierRowKeyframe.mConnectedKeyFrameWeights ∧
    KFMap.WF heavierRowKeyframe.KFcounter_ ∧
    KFMap.lookup heavierRowKeyframe.updateConnections.mConnectedKeyFrameWeights 9 = some 40 ∧
    KFMap.lookup heavierRowKeyframe.updateConnections.mConnectedKeyFrameWeights 7 = some 30 := by
  have hrow : KFMap.WF heavierRowKeyframe.mConnectedKeyFrameWeights := by
    simp [KFMap.WF, heavierRowKeyframe]
  have hmap : KFMap.WF heavierRowKeyframe.KFcounter_ := by
    simp [KFMap.WF, heavierRowKeyframe]
  have h := (updateConnections_inserts_without_overwrite heavierRowKeyframe hrow hmap).2
  exact ⟨hrow, hmap, (h 9 40 (by decide) (by decide)).1 (by decide),
    (h 7 25 (by decide) (by decide)).2 30 (by decide)⟩
/-! ## The adjacency row of a new keyframe -/

/-- The member `insert` appends a pair whose key is above every key of the map. -/
theorem KFMap.insert_above (row : KFMap) (kv : Nat × Int) (h : ∀ e ∈ row, e.1 < kv.1) :
    KFMap.insert row kv = row ++ [kv] := by
  induction row with
  | nil => rfl
  | cons e rest ih =>
    have he : e.1 < kv.1 := h e (List.mem_cons_self _ _)
    unfold KFMap.insert
    rw [if_neg (by omega), if_neg (by omega), ih (fun a ha => h a (List.mem_cons_of_mem _ ha))]
    rfl

/-- On a row whose keys are below those of the map, the loop of `updateConnections`
appends the entries of the map counted above the threshold. -/
theorem Keyframe.updateConnections.loop_append (th : Int) (m : KFMap) (hm : KFMap.WF m) :
    ∀ row : KFMap, (∀ e ∈ row, ∀ a ∈ m, e.1 < a.1) →
      Keyframe.updateConnections.loop th m row
        = row ++ m.filter (fun e => decide (th < e.2)) := by
  induction m with
  | nil => intro row _; simp [Keyframe.updateConnections.loop]
  | cons a rest ih =>
    intro row hrow
    have hm' := List.pairwise_cons.1 hm
    unfold Keyframe.updateConnections.loop
    split_ifs with hw
    · have hins : KFMap.insert row (a.1, a.2) = row ++ [a] :=
        KFMap.insert_above row (a.1, a.2) (fun e he => hrow e he a (List.mem_cons_self _ _))
      rw [hins, ih hm'.2]
      · have hw' : th < a.2 := hw
        simp [List.filter_cons, hw']
      · intro e he b hb
        rcases List.mem_append.1 he with he | he
        · exact hrow e he b (List.mem_cons_of_mem _ hb)
        · have : e = a := by simpa using he
          rw [this]; exact hm'.1 b hb
    · rw [ih hm'.2 row (fun e he b hb => hrow e he b (List.mem_cons_of_mem _ hb))]
      have hw' : ¬ th < a.2 := hw
      simp [List.filter_cons, hw']

/-- The row after `updateConnections` on an empty row. -/
theorem Keyframe.updateConnections_fresh (self : Keyframe)
    (hrow : self.mConnectedKeyFrameWeights = []) (hmap : KFMap.WF self.KFcounter_) :
    self.updateConnections.mConnectedKeyFrameWeights
      = self.KFcounter_.filter (fun e => decide (20 < e.2)) := by
  rw [Keyframe.updateConnections_row, hrow,
    Keyframe.updateConnections.loop_append 20 self.KFcounter_ hmap [] (by simp)]
  rfl

/-- The row built by the first constructor is the row after `updateConnections` on an
empty row with the given observation counts. -/
theorem Keyframe.construct_row (feat : Features) (ts : Int) (ids : List Vector3i) (idx : Int)
    (T : Vector3d) (R : Matrix3d) (img : Image) (p3 : List Point3f) (p2 : List KeyPoint)
    (KFcounter : KFMap) (seq : Int) (params : Parameters) (vio : Bool) :
    (Keyframe.construct feat ts ids idx T R img p3 p2 KFcounter seq params
        vio).mConnectedKeyFrameWeights
      = Keyframe.updateConnections.loop 20 KFcounter [] := by
  cases vio <;>
    simp only [Keyframe.construct, Keyframe.computeBRIEFPoint, Keyframe.computeWindowBRIEFPoint,
      Keyframe.updateConnections_row, if_true, if_false, Bool.false_eq_true]

/-- The row built by the second constructor. -/
theorem Keyframe.construct_poseOnly_row (ts idx : Int) (T : Vector3d) (R : Matrix3d)
    (KFcounter : KFMap) (seq : Int) (params : Parameters) (vio : Bool) :
    (Keyframe.construct_poseOnly ts idx T R KFcounter seq params vio).mConnectedKeyFrameWeights
      = Keyframe.updateConnections.loop 20 KFcounter [] := by
  simp only [Keyframe.construct_poseOnly, Keyframe.updateConnections_row]

/-- The lookup in the entries of a well-formed map that satisfy a test. -/
theorem KFMap.lookup_filter (m : KFMap) (hm : KFMap.WF m) (p : Nat × Int → Bool) (k : Nat)
    (w : Int) :
    KFMap.lookup (m.filter p) k = some w ↔ (KFMap.lookup m k = some w ∧ p (k, w) = true) := by
  have hf : KFMap.WF (m.filter p) := List.Pairwise.sublist (List.filter_sublist m) hm
  constructor
  · intro h
    have hmem := List.mem_filter.1 (KFMap.mem_of_lookup _ k w h)
    exact ⟨KFMap.lookup_of_mem m hm k w hmem.1, hmem.2⟩
  · rintro ⟨h, hp⟩
    exact KFMap.lookup_of_mem _ hf k w (List.mem_filter.2 ⟨KFMap.mem_of_lookup m k w h, hp⟩)

/-- C15. For every observation-count map with strictly increasing keys handed to either
constructor, the adjacency row of the new keyframe is the list of the entries of the map
whose count is strictly greater than 20: a neighbour has weight `w` in the row exactly
when its count in the map is `w` and `20 < w`. With an empty map the row is empty,
whether or not the keyframe is a full keyframe. -/
theorem construct_adjacency_row (feat : Features) (ts : Int) (ids : List Vector3i) (idx : Int)
    (T : Vector3d) (R : Matrix3d) (img : Image) (p3 : List Point3f) (p2 : List KeyPoint)
    (KFcounter : KFMap) (seq : Int) (params : Parameters) (vio : Bool) :
    (KFMap.WF KFcounter →
      (Keyframe.construct feat ts ids idx T R img p3 p2 KFcounter seq params
          vio).mConnectedKeyFrameWeights = KFcounter.filter (fun e => decide (20 < e.2)) ∧
      (Keyframe.construct_poseOnly ts idx T R KFcounter seq params
          vio).mConnectedKeyFrameWeights = KFcounter.filter (fun e => decide (20 < e.2)) ∧
      ∀ (k : Nat) (w : Int),
        (KFMap.lookup (Keyframe.construct feat ts ids idx T R img p3 p2 KFcounter seq params
            vio).mConnectedKeyFrameWeights k = some w
          ↔ (KFMap.lookup KFcounter k = some w ∧ 20 < w)) ∧
        (KFMap.lookup (Keyframe.construct_poseOnly ts idx T R KFcounter seq params
            vio).mConnectedKeyFrameWeights k = some w
          ↔ (KFMap.lookup KFcounter k = some w ∧ 20 < w))) ∧
    (KFcounter = [] →
      (Keyframe.construct feat ts ids idx T R img p3 p2 KFcounter seq params
          vio).mConnectedKeyFrameWeights = [] ∧
      (Keyframe.construct_poseOnly ts idx T R KFcounter seq params
          vio).mConnectedKeyFrameWeights = []) := by
  rw [Keyframe.construct_row, Keyframe.construct_poseOnly_row]
  constructor
  · intro hm
    have hrow : Keyframe.updateConnections.loop 20 KFcounter []
        = KFcounter.filter (fun e => decide (20 < e.2)) := by
      rw [Keyframe.updateConnections.loop_append 20 KFcounter hm [] (by simp)]
      rfl
    rw [hrow]
    refine ⟨rfl, rfl, ?_⟩
    intro k w
    have h := KFMap.lookup_filter KFcounter hm (fun e => decide (20 < e.2)) k w
    simp only [decide_eq_true_eq] at h
    exact ⟨h, h⟩
  · intro hnil
    rw [hnil]
    exact ⟨rfl, rfl⟩

/-- Both constructors on the counts 20, 21 and 35, through `construct_adjacency_row`: the
neighbour counted 20 is left out, those counted 21 and 35 are in the row. -/
theorem construct_adjacency_row_witness :
    KFMap.WF [(4, 20), (7, 21), (9, 35)] ∧
    (builtKeyframe 7 10 ⟨2, 0, 0⟩ rotZ10 [(4, 20), (7, 21), (9, 35)]).mConnectedKeyFrameWeights
      = [(7, 21), (9, 35)] ∧
    (Keyframe.construct_poseOnly 1000 7 ⟨2, 0, 0⟩ rotZ10 [(4, 20), (7, 21), (9, 35)] 1
      ⟨10, 460, 460, 320, 240⟩ false).mConnectedKeyFrameWeights = [(7, 21), (9, 35)] := by
  have hm : KFMap.WF [(4, 20), (7, 21), (9, 35)] := by simp [KFMap.WF]
  have h := (construct_adjacency_row scenarioFeat 1000 ((List.range 15).map (fun i => ⟨i, 0, 0⟩))
    7 ⟨2, 0, 0⟩ rotZ10 scenarioImage ((List.range 15).map (fun i => ⟨i, 2 * i, 5⟩))
    ((List.range 15).map (fun i => kpAt (10 * i + 3) (10 * i + 4))) [(4, 20), (7, 21), (9, 35)] 1
    ⟨10, 460, 460, 320, 240⟩ true).1 hm
  have h' := (construct_adjacency_row scenarioFeat 1000 [] 7 ⟨2, 0, 0⟩ rotZ10 scenarioImage [] []
    [(4, 20), (7, 21), (9, 35)] 1 ⟨10, 460, 460, 320, 240⟩ false).1 hm
  exact ⟨hm, h.1, h'.2.1⟩
/-! ## Invariants of the loop state -/

/-- The members `has_loop`, `loop_index` and `index` after `updateConnections`. -/
theorem Keyframe.updateConnections_loop_state (self : Keyframe) :
    self.updateConnections.has_loop = self.has_loop ∧
    self.updateConnections.loop_index = self.loop_index ∧
    self.updateConnections.index = self.index := by
  unfold Keyframe.updateConnections
  split_ifs <;> exact ⟨rfl, rfl, rfl⟩

/-- A keyframe built by the first constructor has no loop. -/
theorem Keyframe.construct_loop_state (feat : Features) (ts : Int) (ids : List Vector3i)
    (idx : Int) (T : Vector3d) (R : Matrix3d) (img : Image) (p3 : List Point3f)
    (p2 : List KeyPoint) (KFcounter : KFMap) (seq : Int) (params : Parameters) (vio : Bool) :
    (Keyframe.construct feat ts ids idx T R img p3 p2 KFcounter seq params vio).has_loop = false ∧
    (Keyframe.construct feat ts ids idx T R img p3 p2 KFcounter seq params vio).loop_index = -1 := by
  cases vio <;>
    simp only [Keyframe.construct, Keyframe.computeBRIEFPoint, Keyframe.computeWindowBRIEFPoint,
      Keyframe.updateConnections_loop_state, if_true, if_false, Bool.false_eq_true, and_self]

/-- A keyframe built by the second constructor has no loop. -/
theorem Keyframe.construct_poseOnly_loop_state (ts idx : Int) (T : Vector3d) (R : Matrix3d)
    (KFcounter : KFMap) (seq : Int) (params : Parameters) (vio : Bool) :
    (Keyframe.construct_poseOnly ts idx T R KFcounter seq params vio).has_loop = false ∧
    (Keyframe.construct_poseOnly ts idx T R KFcounter seq params vio).loop_index = -1 := by
  simp only [Keyframe.construct_poseOnly, Keyframe.updateConnections_loop_state, and_self]

/-- The members `has_loop`, `loop_index` and `index` after `updateLoop`. -/
theorem Keyframe.updateLoop_loop_state (lib : Library) (self : Keyframe) (c : Vector8d) :
    (self.updateLoop lib c).has_loop = self.has_loop ∧
    (self.updateLoop lib c).loop_index = self.loop_index ∧
    (self.updateLoop lib c).index = self.index := by
  unfold Keyframe.updateLoop
  split_ifs <;> exact ⟨rfl, rfl, rfl⟩

/-- What a call of `findConnection` does to `has_loop`, `loop_index` and `index`. -/
theorem findConnection_loop_state (lib : Library) (self old_kf kf : Keyframe) (b : Bool)
    (h : findConnection lib self old_kf = some (b, kf)) :
    kf.index = self.index ∧
    ((b = true ∧ kf.has_loop = true ∧ kf.loop_index = old_kf.index) ∨
      (b = false ∧ kf.has_loop = self.has_loop ∧ kf.loop_index = self.loop_index)) := by
  cases b with
  | true =>
    obtain ⟨_, _, _, T, R, _, _, _, _, _, _, hkf⟩ := findConnection_true lib self old_kf kf h
    subst hkf
    exact ⟨rfl, Or.inl ⟨rfl, rfl, rfl⟩⟩
  | false =>
    have hkf := findConnection_false lib self old_kf kf h
    subst hkf
    exact ⟨rfl, Or.inr ⟨rfl, rfl, rfl⟩⟩

/-- C12, as amended. In every keyframe state reachable from either constructor through
calls of `findConnection`, `updateLoop`, `updatePose` and `updateSVInPose`, where no
candidate handed to `findConnection` has the index -1, `loop_index` differs from -1
exactly when `has_loop` is true. -/
theorem loop_index_set_iff_has_loop (kf : Keyframe)
    (h : Reachable (fun _ old_kf => old_kf.index ≠ -1) kf) :
    kf.loop_index ≠ -1 ↔ kf.has_loop = true := by
  induction h with
  | full feat ts ids idx T R img p3 p2 KFcounter seq params vio =>
    obtain ⟨h1, h2⟩ := Keyframe.construct_loop_state feat ts ids idx T R img p3 p2 KFcounter
      seq params vio
    rw [h1, h2]; simp
  | poseOnly ts idx T R KFcounter seq params vio =>
    obtain ⟨h1, h2⟩ := Keyframe.construct_poseOnly_loop_state ts idx T R KFcounter seq params vio
    rw [h1, h2]; simp
  | findConnection lib self old_kf kf b _ hcand hfc ih =>
    obtain ⟨_, hcase⟩ := findConnection_loop_state lib self old_kf kf b hfc
    rcases hcase with ⟨_, hl, hi⟩ | ⟨_, hl, hi⟩
    · rw [hl, hi]
      exact ⟨fun _ => rfl, fun _ => hcand⟩
    · rw [hl, hi]; exact ih
  | updateLoop lib self c _ ih =>
    obtain ⟨hl, hi, _⟩ := Keyframe.updateLoop_loop_state lib self c
    rw [hl, hi]; exact ih
  | updatePose self T R _ ih => exact ih
  | updateSVInPose self T R _ ih => exact ih

/-- C12, counterexample. A keyframe built by the first constructor and a candidate built
by the first constructor with index -1: `findConnection` accepts the candidate in
scenario B, and the keyframe then has `has_loop = true` with `loop_index = -1`. -/
theorem loop_index_unset_with_has_loop :
    Reachable (fun _ _ => True) (loopedTo (-1)) ∧
    findConnection libB builtCur (builtKeyframe (-1) 10 ⟨0, 0, 0⟩ Matrix3d.identity [])
      = some (true, loopedTo (-1)) ∧
    (loopedTo (-1)).has_loop = true ∧ (loopedTo (-1)).loop_index = -1 ∧
    ¬ ((loopedTo (-1)).loop_index ≠ -1 ↔ (loopedTo (-1)).has_loop = true) := by
  have hfc : findConnection libB builtCur
      (builtKeyframe (-1) 10 ⟨0, 0, 0⟩ Matrix3d.identity []) = some (true, loopedTo (-1)) :=
    findConnection_of_gate libB builtCur _ (builtMatched 10) (builtMatched 10)
      (some (⟨0, 0, 0⟩, Matrix3d.identity)) _ (by decide)
      (built_descriptorMatched _ _ (by decide!) (by decide!) (by decide!) (by decide!)
        (by decide!) (by decide!) (by decide!))
      (by decide!) (by decide!)
  refine ⟨?_, hfc, rfl, rfl, by decide⟩
  exact Reachable.findConnection libB builtCur _ _ true (Reachable.full _ _ _ _ _ _ _ _ _ _ _ _ _)
    trivial hfc

/-- The keyframe of scenario B after the candidate with index 3 is accepted, through
`loop_index_set_iff_has_loop`. -/
theorem loop_index_set_iff_has_loop_witness :
    Reachable (fun _ old_kf => old_kf.index ≠ -1) (loopedTo 3) ∧
    ((loopedTo 3).loop_index ≠ -1 ↔ (loopedTo 3).has_loop = true) ∧
    (loopedTo 3).loop_index = 3 := by
  have hfc := builtCur_accepts_candidate_three
  have hr : Reachable (fun _ old_kf => old_kf.index ≠ -1) (loopedTo 3) :=
    Reachable.findConnection libB builtCur _ _ true
      (Reachable.full _ _ _ _ _ _ _ _ _ _ _ _ _) (by decide) hfc
  exact ⟨hr, loop_index_set_iff_has_loop (loopedTo 3) hr, rfl⟩

/-- C13, as amended. In every keyframe state reachable from construction through calls of
`findConnection` (and of `updateLoop`, `updatePose` and `updateSVInPose`), where every
candidate handed to `findConnection` has an index different from the index of the
keyframe it is handed to, `has_loop = true` implies that `loop_index` differs from the
keyframe's own index. -/
theorem loop_index_not_self (kf : Keyframe)
    (h : Reachable (fun self old_kf => old_kf.index ≠ self.index) kf)
    (hl : kf.has_loop = true) : kf.loop_index ≠ kf.index := by
  induction h with
  | full feat ts ids idx T R img p3 p2 KFcounter seq params vio =>
    rw [(Keyframe.construct_loop_state feat ts ids idx T R img p3 p2 KFcounter seq params
      vio).1] at hl
    cases hl
  | poseOnly ts idx T R KFcounter seq params vio =>
    rw [(Keyframe.construct_poseOnly_loop_state ts idx T R KFcounter seq params vio).1] at hl
    cases hl
  | findConnection lib self old_kf kf b _ hcand hfc ih =>
    obtain ⟨hidx, hcase⟩ := findConnection_loop_state lib self old_kf kf b hfc
    rcases hcase with ⟨_, _, hi⟩ | ⟨_, hl', hi⟩
    · rw [hi, hidx]; exact hcand
    · rw [hi, hidx]; exact ih (hl' ▸ hl)
  | updateLoop lib self c _ ih =>
    obtain ⟨hl', hi, hidx⟩ := Keyframe.updateLoop_loop_state lib self c
    rw [hi, hidx]; exact ih (hl' ▸ hl)
  | updatePose self T R _ ih => exact ih hl
  | updateSVInPose self T R _ ih => exact ih hl

/-- C13, counterexample. A keyframe built by the first constructor is handed to its own
`findConnection` as the candidate: every window descriptor matches the same feature of
the keyframe itself, the attempt is accepted, and `loop_index` is then the keyframe's own
index 3. -/
theorem loop_index_self_reference :
    Reachable (fun _ _ => True) loopedToSelf ∧
    findConnection libSame builtSelf builtSelf = some (true, loopedToSelf) ∧
    loopedToSelf.has_loop = true ∧ loopedToSelf.index = 3 ∧
    loopedToSelf.loop_index = loopedToSelf.index := by
  have hfc : findConnection libSame builtSelf builtSelf = some (true, loopedToSelf) :=
    findConnection_of_gate libSame builtSelf builtSelf (builtMatched 10) (builtMatched 10)
      (some (⟨0, 0, 0⟩, Matrix3d.identity)) _ (by decide)
      (built_descriptorMatched _ _ (by decide!) (by decide!) (by decide!) (by decide!)
        (by decide!) (by decide!) (by decide!))
      (by decide!) (by decide!)
  refine ⟨?_, hfc, rfl, by decide!, by decide!⟩
  exact Reachable.findConnection libSame builtSelf builtSelf _ true
    (Reachable.full _ _ _ _ _ _ _ _ _ _ _ _ _) trivial hfc

/-- The keyframe of scenario B after the candidate with index 3 is accepted, through
`loop_index_not_self`: the loop of keyframe 7 points to keyframe 3. -/
theorem loop_index_not_self_witness :
    Reachable (fun self old_kf => old_kf.index ≠ self.index) (loopedTo 3) ∧
    (loopedTo 3).has_loop = true ∧ (loopedTo 3).loop_index ≠ (loopedTo 3).index := by
  have hfc := builtCur_accepts_candidate_three
  have hr : Reachable (fun self old_kf => old_kf.index ≠ self.index) (loopedTo 3) :=
    Reachable.findConnection libB builtCur _ _ true
      (Reachable.full _ _ _ _ _ _ _ _ _ _ _ _ _) (by decide!) hfc
  exact ⟨hr, rfl, loop_index_not_self (loopedTo 3) hr rfl⟩
/-! ## The exception of the solver -/

/-- A mask of zeros keeps nothing. -/
theorem keptBy_replicate_zero {α : Type} (v : List α) :
    ∀ n : Nat, keptBy v (List.replicate n 0) = [] := by
  induction v with
  | nil => intro n; simp [keptBy]
  | cons x v ih =>
    intro n
    cases n with
    | zero => simp [keptBy]
    | succ n => rw [List.replicate_succ, keptBy_cons_zero, ih]

/-- The loop of `reduceVector` reads outside a mask shorter than the vector. -/
theorem reduceVector.loop_short {α : Type} (status : List Nat) :
    ∀ (n i j : Nat) (v : List α), i + n = v.length → i ≤ status.length →
      status.length < v.length → reduceVector.loop status n i j v = none := by
  intro n
  induction n with
  | zero => intro i j v hi his hlen; omega
  | succ n ih =>
    intro i j v hi his hlen
    rcases Nat.lt_or_ge i status.length with hlt | hge
    · have hiv : i < v.length := by omega
      simp only [reduceVector.loop, List.getElem?_eq_getElem hlt, List.getElem?_eq_getElem hiv]
      split_ifs
      · exact ih (i + 1) (j + 1) _ (by simp; omega) (by omega) (by simpa using hlen)
      · exact ih (i + 1) j v (by omega) (by omega) hlen
    · simp only [reduceVector.loop, List.getElem?_eq_none hge]

/-- When `reduceVector` returns, the mask is at least as long as the vector and the
result is the kept elements. -/
theorem reduceVector_some {α : Type} (v v' : List α) (status : List Nat)
    (h : reduceVector v status = some v') :
    v.length ≤ status.length ∧ v' = keptBy v status := by
  rcases Nat.lt_or_ge status.length v.length with hlt | hge
  · have := reduceVector.loop_short status v.length 0 0 v (by simp) (Nat.zero_le _) hlt
    simp [reduceVector, this] at h
  · rw [reduceVector_eq_keptBy v status hge] at h
    exact ⟨hge, (Option.some.inj h).symm⟩

/-- The kept elements of a shorter vector are at most as many as those of a vector as long
as the mask. -/
theorem keptBy_length_le {α β : Type} (v : List α) (u : List β) (status : List Nat)
    (hv : v.length ≤ status.length) (hu : u.length = status.length) :
    (keptBy v status).length ≤ (keptBy u status).length := by
  rw [keptBy_length v status hv, keptBy_length u status (by omega), hu, List.take_length]
  exact List.Sublist.countP_le _ (List.take_sublist _ _)

/-- When the loop of `searchByBRIEFDes` returns, each output vector has grown by one entry
per window descriptor. -/
theorem searchByBRIEFDes.loop_lengths (ds : List bitset) (kps kpns : List KeyPoint)
    (ws : List bitset) :
    ∀ (m mn : List Point2f) (st : List Nat) (r : List Point2f × List Point2f × List Nat),
      searchByBRIEFDes.loop ds kps kpns ws m mn st = some r →
      r.1.length = m.length + ws.length ∧ r.2.2.length = st.length + ws.length := by
  induction ws with
  | nil =>
    intro m mn st r h
    simp only [searchByBRIEFDes.loop, Option.some.injEq] at h
    subst h; simp
  | cons w rest ih =>
    intro m mn st r h
    unfold searchByBRIEFDes.loop at h
    cases hs : searchInAera w ds kps kpns ⟨0, 0⟩ ⟨0, 0⟩ with
    | none => rw [hs] at h; cases h
    | some t =>
      obtain ⟨found, pt, ptn⟩ := t
      rw [hs] at h
      have := ih _ _ _ r h
      simp only [List.length_append, List.length_singleton, List.length_cons, List.length_nil] at this ⊢
      omega

/-- After descriptor matching every vector of the match set is at most as long as
`matched_2d_old`. -/
theorem findConnection.descriptorMatched_lengths (self old_kf : Keyframe) (m1 : MatchSet)
    (h : findConnection.descriptorMatched self old_kf = some m1) :
    m1.matched_2d_cur.length ≤ m1.matched_2d_old.length ∧
    m1.matched_2d_old_norm.length ≤ m1.matched_2d_old.length ∧
    m1.matched_3d.length ≤ m1.matched_2d_old.length ∧
    m1.matched_ids.length ≤ m1.matched_2d_old.length := by
  unfold findConnection.descriptorMatched at h
  simp only [Option.bind_eq_bind, Option.pure_def, Option.bind_eq_some] at h
  obtain ⟨⟨mo, mon, st⟩, hsearch, mo', hmo, m3', hm3, mc', hmc, mon', hmon, mi', hmi, hm1⟩ := h
  simp only [Option.some.injEq] at hm1
  subst hm1
  have hlen := searchByBRIEFDes.loop_lengths _ _ _ _ _ _ _ _ hsearch
  simp only [List.length_nil, Nat.zero_add] at hlen
  obtain ⟨_, hmo'⟩ := reduceVector_some _ _ _ hmo
  obtain ⟨h3, hm3'⟩ := reduceVector_some _ _ _ hm3
  obtain ⟨hc, hmc'⟩ := reduceVector_some _ _ _ hmc
  obtain ⟨hn, hmon'⟩ := reduceVector_some _ _ _ hmon
  obtain ⟨hi, hmi'⟩ := reduceVector_some _ _ _ hmi
  subst hmo' hm3' hmc' hmon' hmi'
  have hmost : mo.length = st.length := by omega
  exact ⟨keptBy_length_le _ mo st hc hmost, keptBy_length_le _ mo st hn hmost,
    keptBy_length_le _ mo st h3 hmost, keptBy_length_le _ mo st hi hmost⟩

/-- `PnPRANSAC` when the solver raises its exception: the status has one zero per
correspondence. -/
theorem PnPRANSAC_raised (lib : Library) (self : Keyframe) (m2d : List Point2f)
    (m3d : List Point3f) (h : (PnPRANSAC.solverCall lib self m2d m3d).raised) :
    PnPRANSAC lib self m2d m3d []
      = some (List.replicate m2d.length 0,
          (lib.RodriguesMat (PnPRANSAC.solverCall lib self m2d m3d).rvec).transpose.mulVec
            (PnPRANSAC.solverCall lib self m2d m3d).t.neg,
          (lib.RodriguesMat (PnPRANSAC.solverCall lib self m2d m3d).rvec).transpose) := by
  obtain ⟨hthrew, hrows⟩ := h
  unfold PnPRANSAC.solverCall at hthrew hrows
  simp only [PnPRANSAC, PnPRANSAC.solverCall, hthrew, hrows, if_true, List.map_nil,
    PnPRANSAC.mark, List.nil_append]
/-- The verification block when the solver raises its exception: every vector of the
match set is filtered to empty. -/
theorem findConnection.geometricallyVerified_raised (lib : Library) (self old_kf : Keyframe)
    (m1 : MatchSet) (h1 : findConnection.descriptorMatched self old_kf = some m1)
    (hc : self.params_.min_correspondences < (m1.matched_2d_cur.length : Int))
    (hr : (PnPRANSAC.solverCall lib self m1.matched_2d_old m1.matched_3d).raised) :
    ∃ (T : Vector3d) (R : Matrix3d),
      findConnection.geometricallyVerified lib self m1 = some (MatchSet.empty, some (T, R)) := by
  obtain ⟨hcur, hnorm, h3d, hids⟩ := findConnection.descriptorMatched_lengths self old_kf m1 h1
  have hred : ∀ {α : Type} (v : List α), v.length ≤ m1.matched_2d_old.length →
      reduceVector v (List.replicate m1.matched_2d_old.length 0) = some [] := by
    intro α v hv
    rw [reduceVector_eq_keptBy v _ (by simpa using hv), keptBy_replicate_zero]
  refine ⟨(lib.RodriguesMat (PnPRANSAC.solverCall lib self m1.matched_2d_old
      m1.matched_3d).rvec).transpose.mulVec
        (PnPRANSAC.solverCall lib self m1.matched_2d_old m1.matched_3d).t.neg,
    (lib.RodriguesMat (PnPRANSAC.solverCall lib self m1.matched_2d_old
      m1.matched_3d).rvec).transpose, ?_⟩
  unfold findConnection.geometricallyVerified
  rw [if_pos hc, PnPRANSAC_raised lib self _ _ hr]
  simp only [Option.bind_eq_bind, Option.some_bind, Option.pure_def, hred _ hcur,
    hred _ (le_refl _), hred _ hnorm, hred _ h3d, hred _ hids]
  rfl

/-- C14, as amended. If the solver raises its exception, leaving the `inliers` matrix
empty as it was declared, `PnPRANSAC` returns a status mask with exactly one entry per
correspondence, all zero. In `findConnection`, when the count after descriptor matching
is above the minimum and the solver raises its exception, every vector of the match set
is filtered to empty, and for a configured minimum correspondence count that is not
negative `findConnection` returns false and leaves the keyframe as it was. -/
theorem PnPRANSAC_exception_rejects (lib : Library) (self : Keyframe) :
    (∀ (m2d : List Point2f) (m3d : List Point3f),
      (PnPRANSAC.solverCall lib self m2d m3d).raised →
      ∃ (T : Vector3d) (R : Matrix3d),
        PnPRANSAC lib self m2d m3d [] = some (List.replicate m2d.length 0, T, R) ∧
        (List.replicate m2d.length 0).length = m2d.length ∧
        ∀ s ∈ List.replicate m2d.length 0, s = 0) ∧
    (∀ (old_kf : Keyframe) (m1 : MatchSet),
      old_kf.is_vio_keyframe_ = true →
      findConnection.descriptorMatched self old_kf = some m1 →
      self.params_.min_correspondences < (m1.matched_2d_cur.length : Int) →
      (PnPRANSAC.solverCall lib self m1.matched_2d_old m1.matched_3d).raised →
      (∃ (T : Vector3d) (R : Matrix3d),
        findConnection.geometricallyVerified lib self m1
          = some (MatchSet.empty, some (T, R))) ∧
      (0 ≤ self.params_.min_correspondences →
        findConnection lib self old_kf = some (false, self))) := by
  constructor
  · intro m2d m3d hr
    exact ⟨_, _, PnPRANSAC_raised lib self m2d m3d hr, by simp,
      fun s hs => (List.mem_replicate.1 hs).2⟩
  · intro old_kf m1 hold h1 hc hr
    obtain ⟨T, R, h2⟩ := findConnection.geometricallyVerified_raised lib self old_kf m1 h1 hc hr
    refine ⟨⟨T, R, h2⟩, ?_⟩
    intro hmin
    rw [findConnection_of_stages lib self old_kf m1 MatchSet.empty _ hold h1 h2,
      findConnection.gate_pose]
    have : ¬ ((MatchSet.empty.matched_2d_cur.length : Int) > self.params_.min_correspondences) := by
      simp only [MatchSet.empty, List.length_nil, Nat.cast_zero, gt_iff_lt, not_lt]
      exact hmin
    rw [if_neg this]

/-- C14, counterexample. The configured minimum correspondence count is -1, fifteen
correspondences are left after descriptor matching and the solver raises its exception:
`PnPRANSAC` returns fifteen zeros, and `findConnection`, with no correspondence left,
returns true and records a loop. -/
theorem findConnection_accepts_after_exception :
    (builtPlain (-1)).params_.min_correspondences = -1 ∧
    findConnection.descriptorMatched (builtPlain (-1)) builtSelf
      = some (builtMatched (-1)) ∧
    (PnPRANSAC.solverCall libThrow (builtPlain (-1))
      (builtMatched (-1)).matched_2d_old
      (builtMatched (-1)).matched_3d).raised ∧
    PnPRANSAC libThrow (builtPlain (-1)) (builtMatched (-1)).matched_2d_old
      (builtMatched (-1)).matched_3d []
      = some (List.replicate 15 0, ⟨2, 0, 0⟩, Matrix3d.identity) ∧
    findConnection.geometricallyVerified libThrow (builtPlain (-1))
      (builtMatched (-1))
      = some (MatchSet.empty, some (⟨2, 0, 0⟩, Matrix3d.identity)) ∧
    findConnection libThrow (builtPlain (-1)) builtSelf
      = some (true, findConnection.accepted libThrow (builtPlain (-1)) builtSelf ⟨2, 0, 0⟩
          Matrix3d.identity) ∧
    (findConnection.accepted libThrow (builtPlain (-1)) builtSelf ⟨2, 0, 0⟩
      Matrix3d.identity).has_loop = true := by
  have hm : builtMatched (-1) = builtMatched 10 := by decide!
  have h1 : findConnection.descriptorMatched (builtPlain (-1)) builtSelf
      = some (builtMatched (-1)) := by
    rw [hm]
    exact built_descriptorMatched _ _ (by decide!) (by decide!) (by decide!) (by decide!)
      (by decide!) (by decide!) (by decide!)
  have h2 : findConnection.geometricallyVerified libThrow (builtPlain (-1)) (builtMatched (-1))
      = some (MatchSet.empty, some (⟨2, 0, 0⟩, Matrix3d.identity)) := by decide!
  exact ⟨by decide!, h1, ⟨rfl, rfl⟩, by decide!, h2,
    findConnection_of_gate libThrow (builtPlain (-1)) builtSelf (builtMatched (-1))
      MatchSet.empty (some (⟨2, 0, 0⟩, Matrix3d.identity)) _ (by decide!) h1 h2 (by decide!),
    rfl⟩

/-- The solver raises its exception with minimum correspondence count 10, through
`PnPRANSAC_exception_rejects`: the attempt is rejected and the keyframe is unchanged. -/
theorem PnPRANSAC_exception_rejects_witness :
    builtSelf.is_vio_keyframe_ = true ∧
    findConnection.descriptorMatched (builtPlain 10) builtSelf
      = some (builtMatched 10) ∧
    (PnPRANSAC.solverCall libThrow (builtPlain 10)
      (builtMatched 10).matched_2d_old
      (builtMatched 10).matched_3d).raised ∧
    findConnection libThrow (builtPlain 10) builtSelf = some (false, builtPlain 10) := by
  have h1 : findConnection.descriptorMatched (builtPlain 10) builtSelf
      = some (builtMatched 10) :=
    built_descriptorMatched _ _ rfl rfl rfl rfl rfl rfl rfl
  have hr : (PnPRANSAC.solverCall libThrow (builtPlain 10)
      (builtMatched 10).matched_2d_old
      (builtMatched 10).matched_3d).raised := ⟨rfl, rfl⟩
  exact ⟨by decide!, h1, hr,
    ((PnPRANSAC_exception_rejects libThrow (builtPlain 10)).2 builtSelf
      (builtMatched 10) (by decide!) h1 (by decide!) hr).2 (by decide!)⟩

end SVIn
